import Mathlib

/-! USB audio recorder: the audio IN path

A shallow embedding of `source/audio_in.c` and of the control decoder of
`source/audio_app.c`, with the constants of `include/audio.h`.

* The two PCM buffers are lists of 16-bit words, the flags are `Bool`s, the
  static ping/pong selection is a pointer value.
* The PDM/PCM block is a FIFO of words plus a running flag.
* One call of `audio_in_endpoint_callback` is a function from the state and the
  values held by its two output parameters to the new state, the new values of
  the output parameters and the list of operations the call performed, in order.
-/

namespace AudioRecorder

/-! ## Constants of `include/audio.h` -/

def AUDIO_SAMPLING_RATE_44KHZ : Nat := 44100

def AUDIO_IN_NUM_CHANNELS : Nat := 2

/-- Size of one sub-frame, in bytes. -/
def AUDIO_IN_SUB_FRAME_SIZE : Nat := 2

def AUDIO_IN_BIT_RESOLUTION : Nat := 16

def AUDIO_IN_SAMPLE_FREQ : Nat := AUDIO_SAMPLING_RATE_44KHZ

def ADDITIONAL_AUDIO_IN_SAMPLE_SIZE_BYTES : Nat :=
  (AUDIO_IN_BIT_RESOLUTION / 8) * AUDIO_IN_SUB_FRAME_SIZE

def MAX_AUDIO_IN_PACKET_SIZE_BYTES : Nat :=
  ((AUDIO_IN_SAMPLE_FREQ * ((AUDIO_IN_BIT_RESOLUTION / 8) * AUDIO_IN_NUM_CHANNELS)) / 1000)
    + ADDITIONAL_AUDIO_IN_SAMPLE_SIZE_BYTES

def ADDITIONAL_AUDIO_IN_SAMPLE_SIZE_WORDS : Nat :=
  ADDITIONAL_AUDIO_IN_SAMPLE_SIZE_BYTES / AUDIO_IN_SUB_FRAME_SIZE

def MAX_AUDIO_IN_PACKET_SIZE_WORDS : Nat :=
  MAX_AUDIO_IN_PACKET_SIZE_BYTES / AUDIO_IN_SUB_FRAME_SIZE

/-- Number of values of a 32-bit unsigned integer (`U32`, `unsigned int`, `size_t`). -/
def U32_MOD : Nat := 2 ^ 32

/-- Number of values of an 8-bit unsigned integer (`U8`, `uint8_t`). -/
def U8_MOD : Nat := 2 ^ 8

/-! ## Data model -/

/-- Pointer values that the audio IN path stores or hands out: `NULL`, the start of
one of the two PCM buffers, the start of `silent_frame`, or any other address. -/
inductive Ptr where
  | null
  | audio_in_pcm_buffer_ping
  | audio_in_pcm_buffer_pong
  | silent_frame
  | other (addr : Nat)
  deriving DecidableEq, Repr

/-- The PDM/PCM block as the code sees it: the words queued in its RX FIFO and
whether capture has been started. -/
structure PdmPcm where
  fifo : List Nat
  running : Bool
  deriving DecidableEq, Repr

/-- Operations one call of the endpoint callback performs, in program order. -/
inductive Effect where
  | memset (dest : Ptr) (nbytes : Nat)
  | pdm_pcm_clear
  | pdm_pcm_start
  | get_num_in_fifo
  | pdm_pcm_read (dest : Ptr) (want : Nat) (got : Nat)
  deriving DecidableEq, Repr

/-- Globals of `audio_in.c` (buffers, flags, `mic_mute`, `pdm_pcm`), the function-static
`audio_in_pcm_buffer` of the endpoint callback, the static `current_mic_format_index`
of `audio_app.c` and the state of the user LED. -/
structure State where
  audio_in_pcm_buffer_ping : List Nat
  audio_in_pcm_buffer_pong : List Nat
  audio_in_start_recording : Bool
  audio_in_is_recording : Bool
  mic_mute : Nat
  pdm_pcm : PdmPcm
  audio_in_pcm_buffer : Ptr
  current_mic_format_index : Nat
  user_led_on : Bool
  deriving DecidableEq, Repr

/-- The constant `silent_frame`: `MAX_AUDIO_IN_PACKET_SIZE_BYTES` zero bytes. -/
def silent_frame : List Nat := List.replicate MAX_AUDIO_IN_PACKET_SIZE_BYTES 0

/-- State after static initialisation: zeroed buffers, both flags false, the static
pointer `NULL`, format index 0, an empty FIFO and capture not started. -/
def initial_state : State where
  audio_in_pcm_buffer_ping := List.replicate MAX_AUDIO_IN_PACKET_SIZE_WORDS 0
  audio_in_pcm_buffer_pong := List.replicate MAX_AUDIO_IN_PACKET_SIZE_WORDS 0
  audio_in_start_recording := false
  audio_in_is_recording := false
  mic_mute := 0
  pdm_pcm := { fifo := [], running := false }
  audio_in_pcm_buffer := Ptr.null
  current_mic_format_index := 0
  user_led_on := false

/-! ## The capture source (HAL of the PDM/PCM block) -/

/-- Modelled from the spec: `cyhal_pdm_pcm_clear` of the HAL, which is not part of the
repository; "clear-pending-data" discards the queued words. -/
def cyhal_pdm_pcm_clear (p : PdmPcm) : PdmPcm := { p with fifo := [] }

/-- Modelled from the spec: `cyhal_pdm_pcm_start` of the HAL, which is not part of the
repository; capture runs from now on. -/
def cyhal_pdm_pcm_start (p : PdmPcm) : PdmPcm := { p with running := true }

/-- Modelled from the spec: `Cy_PDM_PCM_GetNumInFifo` of the driver library, which is
not part of the repository; the number of words queued in the FIFO. -/
def Cy_PDM_PCM_GetNumInFifo (p : PdmPcm) : Nat := p.fifo.length

/-- Modelled from the spec: `cyhal_pdm_pcm_read` of the HAL, which is not part of the
repository. The read is non-blocking, returns `min(want_words, words_currently_queued)`
words, copies them to the start of `dest` and removes them from the FIFO. The result is
the device, the destination array and the updated length. -/
def cyhal_pdm_pcm_read (p : PdmPcm) (dest : List Nat) (want : Nat) :
    PdmPcm × List Nat × Nat :=
  let got := min want p.fifo.length
  ({ p with fifo := p.fifo.drop got }, p.fifo.take got ++ dest.drop got, got)

/-- The words the hardware queues between two calls: appended to the FIFO while capture
is running, lost otherwise. -/
def pdm_pcm_capture (p : PdmPcm) (words : List Nat) : PdmPcm :=
  if p.running then { p with fifo := p.fifo ++ words } else p

/-- `memset(buf, 0, nbytes)` on an array of 16-bit little-endian words: word `i` is
zeroed when both of its bytes are below `nbytes`, loses its low byte when only the
first is, and is kept otherwise. -/
def memset_zero (buf : List Nat) (nbytes : Nat) : List Nat :=
  buf.enum.map fun iw =>
    if 2 * iw.1 + 2 ≤ nbytes then 0
    else if 2 * iw.1 + 1 ≤ nbytes then (iw.2 / 256) * 256
    else iw.2

/-! ## `audio_in.c` -/

/-- `audio_in_enable`: request the start of a recording session and turn the LED on. -/
def audio_in_enable (s : State) : State :=
  { s with audio_in_start_recording := true, user_led_on := true }

/-- `audio_in_disable`: clear the recording flag and turn the LED off. -/
def audio_in_disable (s : State) : State :=
  { s with audio_in_is_recording := false, user_led_on := false }

/-- Outcome of one call of `audio_in_endpoint_callback`: the new state, the values of
`*ppNextBuffer` and `*pNextPacketSize` after the call and the operations performed. -/
structure EndpointResult where
  state : State
  ppNextBuffer : Ptr
  pNextPacketSize : Nat
  effects : List Effect
  deriving DecidableEq, Repr

/-- Write `words` as the PCM buffer that `dest` designates. -/
def store_buffer (s : State) (dest : Ptr) (words : List Nat) : State :=
  match dest with
  | Ptr.audio_in_pcm_buffer_ping => { s with audio_in_pcm_buffer_ping := words }
  | Ptr.audio_in_pcm_buffer_pong => { s with audio_in_pcm_buffer_pong := words }
  | _ => s

/-- The PCM buffer that `p` designates (empty for any other pointer). -/
def load_buffer (s : State) (p : Ptr) : List Nat :=
  match p with
  | Ptr.audio_in_pcm_buffer_ping => s.audio_in_pcm_buffer_ping
  | Ptr.audio_in_pcm_buffer_pong => s.audio_in_pcm_buffer_pong
  | _ => []

/-- `audio_in_endpoint_callback`; `ppNextBuffer` and `pNextPacketSize` are the values the
two output parameters hold when the call is made. -/
def audio_in_endpoint_callback (s : State) (ppNextBuffer : Ptr) (pNextPacketSize : Nat) :
    EndpointResult :=
  let sample_size :=
    (MAX_AUDIO_IN_PACKET_SIZE_BYTES - ADDITIONAL_AUDIO_IN_SAMPLE_SIZE_BYTES) % U32_MOD
  if s.audio_in_start_recording then
    let s1 := { s with audio_in_start_recording := false, audio_in_is_recording := true }
    let s2 := { s1 with
      audio_in_pcm_buffer_ping :=
        memset_zero s1.audio_in_pcm_buffer_ping MAX_AUDIO_IN_PACKET_SIZE_BYTES }
    let s3 := { s2 with audio_in_pcm_buffer := Ptr.audio_in_pcm_buffer_ping }
    let s4 := { s3 with pdm_pcm := cyhal_pdm_pcm_clear s3.pdm_pcm }
    let s5 := { s4 with pdm_pcm := cyhal_pdm_pcm_start s4.pdm_pcm }
    { state := s5
      ppNextBuffer := s5.audio_in_pcm_buffer
      pNextPacketSize := sample_size
      effects := [Effect.memset Ptr.audio_in_pcm_buffer_ping MAX_AUDIO_IN_PACKET_SIZE_BYTES,
                  Effect.pdm_pcm_clear, Effect.pdm_pcm_start] }
  else if s.audio_in_is_recording then
    let buf :=
      if s.audio_in_pcm_buffer = Ptr.audio_in_pcm_buffer_ping then
        Ptr.audio_in_pcm_buffer_pong
      else
        Ptr.audio_in_pcm_buffer_ping
    let s1 := { s with audio_in_pcm_buffer := buf }
    let audio_in_count :=
      if Cy_PDM_PCM_GetNumInFifo s1.pdm_pcm > MAX_AUDIO_IN_PACKET_SIZE_WORDS then
        MAX_AUDIO_IN_PACKET_SIZE_WORDS
      else
        MAX_AUDIO_IN_PACKET_SIZE_WORDS - ADDITIONAL_AUDIO_IN_SAMPLE_SIZE_WORDS
    let rd := cyhal_pdm_pcm_read s1.pdm_pcm (load_buffer s1 buf) audio_in_count
    let s2 := store_buffer { s1 with pdm_pcm := rd.1 } buf rd.2.1
    { state := s2
      ppNextBuffer := if s2.mic_mute = 1 then Ptr.silent_frame else buf
      pNextPacketSize := (rd.2.2 * AUDIO_IN_SUB_FRAME_SIZE) % U32_MOD
      effects := [Effect.get_num_in_fifo, Effect.pdm_pcm_read buf audio_in_count rd.2.2] }
  else
    { state := s, ppNextBuffer := ppNextBuffer, pNextPacketSize := pNextPacketSize,
      effects := [] }

/-! ## `cycfg_emusbdev.c` and `audio_app.c`: the control decoder -/

/-- One entry of `microphone_formats`. -/
structure USBD_AUDIO_FORMAT where
  Flags : Nat
  NrChannels : Nat
  SubFrameSize : Nat
  BitResolution : Nat
  SamFreq : Nat
  deriving DecidableEq, Repr, Inhabited

/-- The unit ids of an interface, which the USB stack fills in. -/
structure USBD_AUDIO_UNITS where
  FeatureUnitID : Nat
  deriving DecidableEq, Repr

/-- The fields of an interface configuration that the control decoder reads. -/
structure USBD_AUDIO_IF_CONF where
  NumFormats : Nat
  paFormats : List USBD_AUDIO_FORMAT
  pUnits : USBD_AUDIO_UNITS
  deriving DecidableEq, Repr

def microphone_formats : List USBD_AUDIO_FORMAT :=
  [{ Flags := 0, NrChannels := AUDIO_IN_NUM_CHANNELS, SubFrameSize := AUDIO_IN_SUB_FRAME_SIZE,
     BitResolution := AUDIO_IN_BIT_RESOLUTION, SamFreq := AUDIO_IN_SAMPLE_FREQ }]

/-- The microphone entry `audio_interfaces[0]`, for the unit ids the stack assigned. -/
def microphone_config (microphone_units : USBD_AUDIO_UNITS) : USBD_AUDIO_IF_CONF where
  NumFormats := microphone_formats.length
  paFormats := microphone_formats
  pUnits := microphone_units

/-- Audio event ids of the USB stack that the decoder has a case for, and any other
event code. -/
inductive AudioEvent where
  | USB_AUDIO_PLAYBACK_START
  | USB_AUDIO_PLAYBACK_STOP
  | USB_AUDIO_RECORD_START
  | USB_AUDIO_RECORD_STOP
  | USB_AUDIO_SET_CUR
  | USB_AUDIO_GET_CUR
  | USB_AUDIO_SET_MIN
  | USB_AUDIO_GET_MIN
  | USB_AUDIO_SET_MAX
  | USB_AUDIO_GET_MAX
  | USB_AUDIO_SET_RES
  | USB_AUDIO_GET_RES
  | other (code : Nat)
  deriving DecidableEq, Repr

/-- Control selectors of the USB stack that the decoder has a case for, and any other
selector code. -/
inductive AudioControl where
  | USB_AUDIO_MUTE_CONTROL
  | USB_AUDIO_VOLUME_CONTROL
  | USB_AUDIO_SAMPLING_FREQ_CONTROL
  | other (code : Nat)
  deriving DecidableEq, Repr

def ONE_BYTE : Nat := 1

def THREE_BYTES : Nat := 3

/-- Outcome of one call of `audio_control_callback`: the new state, the contents of
`pBuffer` after the call and the return value. -/
structure ControlResult where
  state : State
  pBuffer : List Nat
  retVal : Int
  deriving DecidableEq, Repr

/-- `audio_control_callback` for the interface configuration `cfg`; `pBuffer` is the
contents of the buffer the stack passes in. -/
def audio_control_callback (cfg : USBD_AUDIO_IF_CONF) (s : State) (Event : AudioEvent)
    (Unit : Nat) (ControlSelector : AudioControl) (pBuffer : List Nat) (NumBytes : Nat)
    (_InterfaceNo : Nat) (AltSetting : Nat) : ControlResult :=
  match Event with
  | AudioEvent.USB_AUDIO_RECORD_START =>
    { state := audio_in_enable s, pBuffer := pBuffer, retVal := 0 }
  | AudioEvent.USB_AUDIO_RECORD_STOP =>
    { state := audio_in_disable s, pBuffer := pBuffer, retVal := 0 }
  | AudioEvent.USB_AUDIO_PLAYBACK_START => { state := s, pBuffer := pBuffer, retVal := 0 }
  | AudioEvent.USB_AUDIO_PLAYBACK_STOP => { state := s, pBuffer := pBuffer, retVal := 0 }
  | AudioEvent.USB_AUDIO_SET_CUR =>
    match ControlSelector with
    | AudioControl.USB_AUDIO_MUTE_CONTROL =>
      if ONE_BYTE = NumBytes then
        if Unit = cfg.pUnits.FeatureUnitID then
          { state := { s with mic_mute := pBuffer.getD 0 0 }, pBuffer := pBuffer, retVal := 0 }
        else { state := s, pBuffer := pBuffer, retVal := 0 }
      else { state := s, pBuffer := pBuffer, retVal := 0 }
    | AudioControl.USB_AUDIO_VOLUME_CONTROL => { state := s, pBuffer := pBuffer, retVal := 0 }
    | AudioControl.USB_AUDIO_SAMPLING_FREQ_CONTROL =>
      if THREE_BYTES = NumBytes then
        if Unit = cfg.pUnits.FeatureUnitID then
          if AltSetting > 0 ∧ AltSetting < cfg.NumFormats then
            { state := { s with current_mic_format_index := (AltSetting - 1) % U8_MOD },
              pBuffer := pBuffer, retVal := 0 }
          else { state := s, pBuffer := pBuffer, retVal := 0 }
        else { state := s, pBuffer := pBuffer, retVal := 0 }
      else { state := s, pBuffer := pBuffer, retVal := 0 }
    | AudioControl.other _ => { state := s, pBuffer := pBuffer, retVal := 1 }
  | AudioEvent.USB_AUDIO_GET_CUR =>
    match ControlSelector with
    | AudioControl.USB_AUDIO_MUTE_CONTROL =>
      { state := s, pBuffer := pBuffer.set 0 0, retVal := 0 }
    | AudioControl.USB_AUDIO_VOLUME_CONTROL =>
      { state := s, pBuffer := (pBuffer.set 0 0).set 1 0, retVal := 0 }
    | AudioControl.USB_AUDIO_SAMPLING_FREQ_CONTROL =>
      if Unit = cfg.pUnits.FeatureUnitID then
        let SamFreq := (cfg.paFormats.getD s.current_mic_format_index default).SamFreq
        { state := s
          pBuffer := ((pBuffer.set 0 (SamFreq % 256)).set 1 ((SamFreq / 2 ^ 8) % 256)).set 2
            ((SamFreq / 2 ^ 16) % 256)
          retVal := 0 }
      else { state := s, pBuffer := pBuffer, retVal := 0 }
    | AudioControl.other _ => { state := s, pBuffer := (pBuffer.set 0 0).set 1 0, retVal := 0 }
  | AudioEvent.USB_AUDIO_SET_MIN => { state := s, pBuffer := pBuffer, retVal := 0 }
  | AudioEvent.USB_AUDIO_SET_MAX => { state := s, pBuffer := pBuffer, retVal := 0 }
  | AudioEvent.USB_AUDIO_SET_RES => { state := s, pBuffer := pBuffer, retVal := 0 }
  | AudioEvent.USB_AUDIO_GET_MIN =>
    match ControlSelector with
    | AudioControl.USB_AUDIO_VOLUME_CONTROL =>
      { state := s, pBuffer := (pBuffer.set 0 0).set 1 0xf1, retVal := 0 }
    | _ => { state := s, pBuffer := (pBuffer.set 0 0).set 1 0, retVal := 0 }
  | AudioEvent.USB_AUDIO_GET_MAX =>
    match ControlSelector with
    | AudioControl.USB_AUDIO_VOLUME_CONTROL =>
      { state := s, pBuffer := (pBuffer.set 0 0).set 1 0, retVal := 0 }
    | _ => { state := s, pBuffer := (pBuffer.set 0 0).set 1 0, retVal := 0 }
  | AudioEvent.USB_AUDIO_GET_RES =>
    match ControlSelector with
    | AudioControl.USB_AUDIO_VOLUME_CONTROL =>
      { state := s, pBuffer := (pBuffer.set 0 0).set 1 1, retVal := 0 }
    | _ => { state := s, pBuffer := (pBuffer.set 0 0).set 1 0, retVal := 0 }
  | AudioEvent.other _ => { state := s, pBuffer := pBuffer, retVal := 1 }

/-! ## Runs of the audio IN path -/

/-- What happens to the audio IN path, one at a time: a control request, a service tick
of the endpoint (with the values its two output parameters hold beforehand), or words
that the microphone front end queues. -/
inductive Input where
  | control (Event : AudioEvent) (Unit : Nat) (ControlSelector : AudioControl)
      (pBuffer : List Nat) (NumBytes : Nat) (InterfaceNo : Nat) (AltSetting : Nat)
  | tick (ppNextBuffer : Ptr) (pNextPacketSize : Nat)
  | capture (words : List Nat)
  deriving DecidableEq, Repr

/-- One service tick of a run: the state it was taken in and its outcome. -/
structure TickRecord where
  before : State
  result : EndpointResult
  deriving DecidableEq, Repr

/-- The ticks of a run from state `s`, in the order they were taken. -/
def tick_log (cfg : USBD_AUDIO_IF_CONF) : State → List Input → List TickRecord
  | _, [] => []
  | s, Input.control ev u cs buf n i a :: rest =>
    tick_log cfg (audio_control_callback cfg s ev u cs buf n i a).state rest
  | s, Input.tick p n :: rest =>
    { before := s, result := audio_in_endpoint_callback s p n }
      :: tick_log cfg (audio_in_endpoint_callback s p n).state rest
  | s, Input.capture words :: rest =>
    tick_log cfg { s with pdm_pcm := pdm_pcm_capture s.pdm_pcm words } rest

/-- The state at the end of a run from state `s`. -/
def run (cfg : USBD_AUDIO_IF_CONF) : State → List Input → State
  | s, [] => s
  | s, Input.control ev u cs buf n i a :: rest =>
    run cfg (audio_control_callback cfg s ev u cs buf n i a).state rest
  | s, Input.tick p n :: rest => run cfg (audio_in_endpoint_callback s p n).state rest
  | s, Input.capture words :: rest =>
    run cfg { s with pdm_pcm := pdm_pcm_capture s.pdm_pcm words } rest

/-! ## Reading the operations of a tick -/

/-- The operations of a tick that address the capture source, in order. -/
def capture_source_ops : List Effect → List Effect
  | [] => []
  | Effect.memset _ _ :: es => capture_source_ops es
  | e :: es => e :: capture_source_ops es

/-- The buffers a tick writes to: the target of each `memset` and of each capture read. -/
def written_buffers : List Effect → List Ptr
  | [] => []
  | Effect.memset dest _ :: es => dest :: written_buffers es
  | Effect.pdm_pcm_read dest _ _ :: es => dest :: written_buffers es
  | _ :: es => written_buffers es

/-- The word counts a tick requests from the capture source, one per read. -/
def requested_words : List Effect → List Nat
  | [] => []
  | Effect.pdm_pcm_read _ want _ :: es => want :: requested_words es
  | _ :: es => requested_words es

/-- The word counts the capture source delivered to a tick, one per read. -/
def got_words : List Effect → List Nat
  | [] => []
  | Effect.pdm_pcm_read _ _ got :: es => got :: got_words es
  | _ :: es => got_words es

/-- Neither recording flag is set. -/
def Idle (s : State) : Prop :=
  s.audio_in_start_recording = false ∧ s.audio_in_is_recording = false

/-- A tick taken in this state runs the recording branch: no start is pending and the
recording flag is set. -/
def Recording (s : State) : Prop :=
  s.audio_in_start_recording = false ∧ s.audio_in_is_recording = true

instance (s : State) : Decidable (Idle s) := by unfold Idle; infer_instance

instance (s : State) : Decidable (Recording s) := by unfold Recording; infer_instance

/-! ## What the transport reads -/

/-- The bytes of an array of 16-bit little-endian words. -/
def words_to_bytes : List Nat → List Nat
  | [] => []
  | w :: ws => (w % 256) :: ((w / 256) % 256) :: words_to_bytes ws

/-- The bytes stored at `p`: those of a PCM buffer or of `silent_frame` (none for any
other pointer). -/
def bytes_at (s : State) (p : Ptr) : List Nat :=
  match p with
  | Ptr.audio_in_pcm_buffer_ping => words_to_bytes s.audio_in_pcm_buffer_ping
  | Ptr.audio_in_pcm_buffer_pong => words_to_bytes s.audio_in_pcm_buffer_pong
  | Ptr.silent_frame => silent_frame
  | _ => []

/-- The bytes a tick gives to the transport: the first `*pNextPacketSize` bytes at
`*ppNextBuffer`. -/
def transport_bytes (r : EndpointResult) : List Nat :=
  (bytes_at r.state r.ppNextBuffer).take r.pNextPacketSize

/-- The state with `mic_mute` put aside. -/
def forget_mute (s : State) : State := { s with mic_mute := 0 }

/-- The events `audio_control_callback` has a case for. -/
def recognised_events : List AudioEvent :=
  [AudioEvent.USB_AUDIO_RECORD_START, AudioEvent.USB_AUDIO_RECORD_STOP,
   AudioEvent.USB_AUDIO_PLAYBACK_START, AudioEvent.USB_AUDIO_PLAYBACK_STOP,
   AudioEvent.USB_AUDIO_SET_CUR, AudioEvent.USB_AUDIO_GET_CUR,
   AudioEvent.USB_AUDIO_SET_MIN, AudioEvent.USB_AUDIO_GET_MIN,
   AudioEvent.USB_AUDIO_SET_MAX, AudioEvent.USB_AUDIO_GET_MAX,
   AudioEvent.USB_AUDIO_SET_RES, AudioEvent.USB_AUDIO_GET_RES]

/-! ## `audio_app.c`: the supervisor loop of `audio_app_task` -/

def DELAY_TICKS : Nat := 50

/-- The two locals of `audio_app_task` that the loop keeps. -/
structure AppTaskState where
  usb_suspended : Bool
  usb_connected : Bool
  deriving DecidableEq, Repr

/-- Calls one iteration of the loop makes, the two log lines among them. -/
inductive AppEffect where
  | USBD_AUDIO_Stop_Play
  | USBD_AUDIO_Start_Play
  | printf_disconnected
  | printf_connected
  | vTaskDelay (ms : Nat)
  deriving DecidableEq, Repr

/-- Outcome of one iteration of the loop: the locals and the calls made, in order. -/
structure AppTaskResult where
  state : AppTaskState
  effects : List AppEffect
  deriving DecidableEq, Repr

/-- The locals of `audio_app_task` when the loop is entered. -/
def audio_app_task_init : AppTaskState where
  usb_suspended := false
  usb_connected := false

/-- One iteration of the `for (;;)` loop of `audio_app_task`, for the value of
`usb_suspend_flag` it samples. -/
def audio_app_task_loop (usb_suspend_flag : Bool) (st : AppTaskState) : AppTaskResult :=
  if usb_suspend_flag then
    if !st.usb_suspended then
      { state := { usb_suspended := true, usb_connected := false }
        effects := [AppEffect.USBD_AUDIO_Stop_Play, AppEffect.printf_disconnected,
                    AppEffect.vTaskDelay DELAY_TICKS] }
    else
      { state := st, effects := [AppEffect.vTaskDelay DELAY_TICKS] }
  else
    if !st.usb_connected then
      { state := { usb_connected := true, usb_suspended := false }
        effects := [AppEffect.USBD_AUDIO_Start_Play, AppEffect.printf_connected,
                    AppEffect.vTaskDelay DELAY_TICKS] }
    else
      { state := st, effects := [AppEffect.vTaskDelay DELAY_TICKS] }

/-- The calls of an iteration other than the delay: start, stop and the log lines. -/
def supervisor_actions : List AppEffect → List AppEffect
  | [] => []
  | AppEffect.vTaskDelay _ :: es => supervisor_actions es
  | e :: es => e :: supervisor_actions es

/-! ## Invariants of the ping/pong selection -/

/-- While the recording flag is set, the static pointer designates the ping or the pong
buffer. -/
def RecordingSelected (s : State) : Prop :=
  s.audio_in_is_recording = true →
    s.audio_in_pcm_buffer = Ptr.audio_in_pcm_buffer_ping ∨
    s.audio_in_pcm_buffer = Ptr.audio_in_pcm_buffer_pong

/-- What links the buffers `w` written by the latest tick to the current state: while
the recording flag is set, that tick wrote exactly the buffer the static pointer
designates, which is the ping or the pong buffer. -/
def LastWritten (w : List Ptr) (s : State) : Prop :=
  s.audio_in_is_recording = true →
    w = [s.audio_in_pcm_buffer] ∧
    (s.audio_in_pcm_buffer = Ptr.audio_in_pcm_buffer_ping ∨
      s.audio_in_pcm_buffer = Ptr.audio_in_pcm_buffer_pong)

/-! ## Helper lemmas -/

theorem max_packet_size_bytes_eq : MAX_AUDIO_IN_PACKET_SIZE_BYTES = 180 := by decide

theorem max_packet_size_words_eq : MAX_AUDIO_IN_PACKET_SIZE_WORDS = 90 := by decide

theorem additional_sample_size_bytes_eq : ADDITIONAL_AUDIO_IN_SAMPLE_SIZE_BYTES = 4 := by
  decide

theorem additional_sample_size_words_eq : ADDITIONAL_AUDIO_IN_SAMPLE_SIZE_WORDS = 2 := by
  decide

theorem sub_frame_size_eq : AUDIO_IN_SUB_FRAME_SIZE = 2 := rfl

theorem memset_zero_length (buf : List Nat) (nbytes : Nat) :
    (memset_zero buf nbytes).length = buf.length := by
  simp [memset_zero]

/-- A `memset` that covers the whole array leaves only zero words. -/
theorem memset_zero_all (buf : List Nat) (nbytes : Nat) (h : 2 * buf.length ≤ nbytes) :
    memset_zero buf nbytes = List.replicate buf.length 0 := by
  rw [List.eq_replicate_iff]
  refine ⟨memset_zero_length buf nbytes, ?_⟩
  intro b hb
  simp only [memset_zero, List.mem_map] at hb
  obtain ⟨iw, hmem, rfl⟩ := hb
  have hlt := List.fst_lt_of_mem_enum hmem
  have : 2 * iw.1 + 2 ≤ nbytes := by omega
  simp [this]

/-! ## Idle ticks -/

/-- C1, refuted as stated: in the idle initial state, with the output parameters holding
`NULL` and 0, one call of `audio_in_endpoint_callback` hands out neither the silent frame
nor the nominal length of 176 bytes. -/
theorem idle_tick_output_counterexample :
    Idle initial_state ∧
    (audio_in_endpoint_callback initial_state Ptr.null 0).ppNextBuffer ≠ Ptr.silent_frame ∧
    (audio_in_endpoint_callback initial_state Ptr.null 0).pNextPacketSize
      ≠ MAX_AUDIO_IN_PACKET_SIZE_BYTES - ADDITIONAL_AUDIO_IN_SAMPLE_SIZE_BYTES := by
  decide

/-- C1, amended: in every idle state one call of `audio_in_endpoint_callback` writes
neither output parameter; `*ppNextBuffer` and `*pNextPacketSize` keep the values they
held before the call. -/
theorem idle_tick_keeps_outputs (s : State) (ppNextBuffer : Ptr) (pNextPacketSize : Nat)
    (h : Idle s) :
    (audio_in_endpoint_callback s ppNextBuffer pNextPacketSize).ppNextBuffer = ppNextBuffer ∧
    (audio_in_endpoint_callback s ppNextBuffer pNextPacketSize).pNextPacketSize
      = pNextPacketSize := by
  obtain ⟨h1, h2⟩ := h
  simp [audio_in_endpoint_callback, h1, h2]

theorem idle_tick_keeps_outputs_witness :
    Idle initial_state ∧
    (audio_in_endpoint_callback initial_state (Ptr.other 7) 5).ppNextBuffer = Ptr.other 7 ∧
    (audio_in_endpoint_callback initial_state (Ptr.other 7) 5).pNextPacketSize = 5 :=
  ⟨by decide, idle_tick_keeps_outputs initial_state (Ptr.other 7) 5 (by decide)⟩

/-- C2: in every idle state one call of `audio_in_endpoint_callback` performs no
operation at all, in particular none on the capture source, and leaves the FIFO level,
both PCM buffers, the ping/pong selection, `mic_mute` and both recording flags (indeed
the whole state) unchanged. -/
theorem idle_tick_frame (s : State) (ppNextBuffer : Ptr) (pNextPacketSize : Nat)
    (h : Idle s) :
    capture_source_ops (audio_in_endpoint_callback s ppNextBuffer pNextPacketSize).effects = [] ∧
    (audio_in_endpoint_callback s ppNextBuffer pNextPacketSize).effects = [] ∧
    Cy_PDM_PCM_GetNumInFifo (audio_in_endpoint_callback s ppNextBuffer pNextPacketSize).state.pdm_pcm
      = Cy_PDM_PCM_GetNumInFifo s.pdm_pcm ∧
    (audio_in_endpoint_callback s ppNextBuffer pNextPacketSize).state.audio_in_pcm_buffer_ping
      = s.audio_in_pcm_buffer_ping ∧
    (audio_in_endpoint_callback s ppNextBuffer pNextPacketSize).state.audio_in_pcm_buffer_pong
      = s.audio_in_pcm_buffer_pong ∧
    (audio_in_endpoint_callback s ppNextBuffer pNextPacketSize).state.audio_in_pcm_buffer
      = s.audio_in_pcm_buffer ∧
    (audio_in_endpoint_callback s ppNextBuffer pNextPacketSize).state.mic_mute = s.mic_mute ∧
    (audio_in_endpoint_callback s ppNextBuffer pNextPacketSize).state.audio_in_start_recording
      = s.audio_in_start_recording ∧
    (audio_in_endpoint_callback s ppNextBuffer pNextPacketSize).state.audio_in_is_recording
      = s.audio_in_is_recording ∧
    (audio_in_endpoint_callback s ppNextBuffer pNextPacketSize).state = s := by
  obtain ⟨h1, h2⟩ := h
  simp [audio_in_endpoint_callback, h1, h2, capture_source_ops]

theorem idle_tick_frame_witness :
    Idle initial_state ∧
    (audio_in_endpoint_callback initial_state Ptr.null 0).effects = [] ∧
    (audio_in_endpoint_callback initial_state Ptr.null 0).state = initial_state :=
  ⟨by decide, (idle_tick_frame initial_state Ptr.null 0 (by decide)).2.1,
    (idle_tick_frame initial_state Ptr.null 0 (by decide)).2.2.2.2.2.2.2.2.2⟩

/-! ## The start tick -/

/-- C3: from every state, a `USB_AUDIO_RECORD_START` request followed by one call of
`audio_in_endpoint_callback` ends with no start pending and the recording flag set, and
the capture source received, in this order, one clear and one start and nothing else
(no read, no FIFO level query). -/
theorem record_start_then_tick (cfg : USBD_AUDIO_IF_CONF) (s : State) (Unit : Nat)
    (ControlSelector : AudioControl) (pBuffer : List Nat) (NumBytes : Nat)
    (InterfaceNo : Nat) (AltSetting : Nat) (ppNextBuffer : Ptr) (pNextPacketSize : Nat) :
    (audio_in_endpoint_callback
      (audio_control_callback cfg s AudioEvent.USB_AUDIO_RECORD_START Unit ControlSelector
        pBuffer NumBytes InterfaceNo AltSetting).state
      ppNextBuffer pNextPacketSize).state.audio_in_start_recording = false ∧
    (audio_in_endpoint_callback
      (audio_control_callback cfg s AudioEvent.USB_AUDIO_RECORD_START Unit ControlSelector
        pBuffer NumBytes InterfaceNo AltSetting).state
      ppNextBuffer pNextPacketSize).state.audio_in_is_recording = true ∧
    capture_source_ops (audio_in_endpoint_callback
      (audio_control_callback cfg s AudioEvent.USB_AUDIO_RECORD_START Unit ControlSelector
        pBuffer NumBytes InterfaceNo AltSetting).state
      ppNextBuffer pNextPacketSize).effects = [Effect.pdm_pcm_clear, Effect.pdm_pcm_start] ∧
    (audio_control_callback cfg s AudioEvent.USB_AUDIO_RECORD_START Unit ControlSelector
        pBuffer NumBytes InterfaceNo AltSetting).retVal = 0 := by
  simp [audio_control_callback, audio_in_enable, audio_in_endpoint_callback,
    capture_source_ops]

/-- C4: on every tick taken with `audio_in_start_recording` set, whatever the FIFO holds
and whatever `mic_mute` is, the transport is handed the ping buffer, whose
`MAX_AUDIO_IN_PACKET_SIZE_WORDS` = 90 words are all zero after the call, with the nominal
length `MAX_AUDIO_IN_PACKET_SIZE_BYTES - ADDITIONAL_AUDIO_IN_SAMPLE_SIZE_BYTES` = 176. -/
theorem start_tick_output (s : State) (ppNextBuffer : Ptr) (pNextPacketSize : Nat)
    (hstart : s.audio_in_start_recording = true)
    (hlen : s.audio_in_pcm_buffer_ping.length = MAX_AUDIO_IN_PACKET_SIZE_WORDS) :
    (audio_in_endpoint_callback s ppNextBuffer pNextPacketSize).ppNextBuffer
      = Ptr.audio_in_pcm_buffer_ping ∧
    load_buffer (audio_in_endpoint_callback s ppNextBuffer pNextPacketSize).state
        (audio_in_endpoint_callback s ppNextBuffer pNextPacketSize).ppNextBuffer
      = List.replicate MAX_AUDIO_IN_PACKET_SIZE_WORDS 0 ∧
    MAX_AUDIO_IN_PACKET_SIZE_WORDS = 90 ∧
    (audio_in_endpoint_callback s ppNextBuffer pNextPacketSize).pNextPacketSize
      = MAX_AUDIO_IN_PACKET_SIZE_BYTES - ADDITIONAL_AUDIO_IN_SAMPLE_SIZE_BYTES ∧
    MAX_AUDIO_IN_PACKET_SIZE_BYTES - ADDITIONAL_AUDIO_IN_SAMPLE_SIZE_BYTES = 180 - 4 ∧
    180 - 4 = 176 := by
  have hz : memset_zero s.audio_in_pcm_buffer_ping MAX_AUDIO_IN_PACKET_SIZE_BYTES
      = List.replicate MAX_AUDIO_IN_PACKET_SIZE_WORDS 0 := by
    rw [memset_zero_all _ _ (by rw [hlen]; decide), hlen]
  refine ⟨?_, ?_, by decide, ?_, by decide, by decide⟩
  · simp [audio_in_endpoint_callback, hstart]
  · simp [audio_in_endpoint_callback, hstart, load_buffer, cyhal_pdm_pcm_start,
      cyhal_pdm_pcm_clear, hz]
  · simp [audio_in_endpoint_callback, hstart]
    decide

/-- A state with a start pending, 100 words queued in the FIFO, the microphone muted and
a ping buffer full of old samples. -/
def start_pending_state : State :=
  { initial_state with
    audio_in_start_recording := true
    mic_mute := 1
    pdm_pcm := { fifo := List.replicate 100 7, running := true }
    audio_in_pcm_buffer_ping := List.replicate MAX_AUDIO_IN_PACKET_SIZE_WORDS 0x1234 }

theorem start_tick_output_witness :
    start_pending_state.audio_in_start_recording = true ∧
    start_pending_state.audio_in_pcm_buffer_ping.length = MAX_AUDIO_IN_PACKET_SIZE_WORDS ∧
    (audio_in_endpoint_callback start_pending_state Ptr.null 0).ppNextBuffer
      = Ptr.audio_in_pcm_buffer_ping ∧
    (audio_in_endpoint_callback start_pending_state Ptr.null 0).pNextPacketSize = 176 :=
  ⟨by decide, by decide,
    (start_tick_output start_pending_state Ptr.null 0 (by decide) (by decide)).1,
    (start_tick_output start_pending_state Ptr.null 0 (by decide) (by decide)).2.2.2.1⟩

/-! ## Stopping -/

/-- C5, the code at the failing input: a `USB_AUDIO_RECORD_START` request directly
followed by a `USB_AUDIO_RECORD_STOP` request leaves `audio_in_start_recording` set (with
the LED off), and the next tick clears and starts the capture source and sets
`audio_in_is_recording`. -/
theorem record_stop_keeps_pending_start :
    (audio_control_callback (microphone_config ⟨0⟩)
      (audio_control_callback (microphone_config ⟨0⟩) initial_state
        AudioEvent.USB_AUDIO_RECORD_START 0 (AudioControl.other 0) [] 0 0 1).state
      AudioEvent.USB_AUDIO_RECORD_STOP 0 (AudioControl.other 0) [] 0 0 0).state
      = { initial_state with audio_in_start_recording := true } ∧
    (audio_in_endpoint_callback { initial_state with audio_in_start_recording := true }
      Ptr.null 0).state.audio_in_is_recording = true ∧
    capture_source_ops (audio_in_endpoint_callback
      { initial_state with audio_in_start_recording := true } Ptr.null 0).effects
      = [Effect.pdm_pcm_clear, Effect.pdm_pcm_start] := by
  decide

/-! ## Double buffering -/

/-- What links the pointer `p` handed out by the latest tick to the current state: while
the recording flag is set, `p` is the buffer the static pointer designates, or the
silent frame. -/
def HandedOut (p : Ptr) (s : State) : Prop :=
  s.audio_in_is_recording = true → p = s.audio_in_pcm_buffer ∨ p = Ptr.silent_frame

@[simp]
theorem store_buffer_is_recording (s : State) (dest : Ptr) (words : List Nat) :
    (store_buffer s dest words).audio_in_is_recording = s.audio_in_is_recording := by
  cases dest <;> rfl

@[simp]
theorem store_buffer_start_recording (s : State) (dest : Ptr) (words : List Nat) :
    (store_buffer s dest words).audio_in_start_recording = s.audio_in_start_recording := by
  cases dest <;> rfl

@[simp]
theorem store_buffer_selection (s : State) (dest : Ptr) (words : List Nat) :
    (store_buffer s dest words).audio_in_pcm_buffer = s.audio_in_pcm_buffer := by
  cases dest <;> rfl

@[simp]
theorem store_buffer_mic_mute (s : State) (dest : Ptr) (words : List Nat) :
    (store_buffer s dest words).mic_mute = s.mic_mute := by
  cases dest <;> rfl

@[simp]
theorem store_buffer_pdm_pcm (s : State) (dest : Ptr) (words : List Nat) :
    (store_buffer s dest words).pdm_pcm = s.pdm_pcm := by
  cases dest <;> rfl

@[simp]
theorem store_buffer_format_index (s : State) (dest : Ptr) (words : List Nat) :
    (store_buffer s dest words).current_mic_format_index = s.current_mic_format_index := by
  cases dest <;> rfl

theorem handed_out_after_tick (s : State) (p : Ptr) (n : Nat) :
    HandedOut (audio_in_endpoint_callback s p n).ppNextBuffer
      (audio_in_endpoint_callback s p n).state := by
  unfold HandedOut audio_in_endpoint_callback
  by_cases hs : s.audio_in_start_recording = true
  · simp [hs]
  · by_cases hr : s.audio_in_is_recording = true
    · by_cases hm : s.mic_mute = 1 <;> simp [hs, hr, hm]
    · simp [hs, hr]

theorem handed_out_after_control (cfg : USBD_AUDIO_IF_CONF) (p : Ptr) (s : State)
    (ev : AudioEvent) (u : Nat) (cs : AudioControl) (buf : List Nat) (nb i a : Nat)
    (h : HandedOut p s) :
    HandedOut p (audio_control_callback cfg s ev u cs buf nb i a).state := by
  unfold HandedOut at *
  unfold audio_control_callback
  cases ev <;> cases cs <;> simp [audio_in_enable, audio_in_disable] <;>
    first
      | exact h
      | (split_ifs <;> exact h)

theorem handed_out_after_capture (p : Ptr) (s : State) (words : List Nat)
    (h : HandedOut p s) :
    HandedOut p { s with pdm_pcm := pdm_pcm_capture s.pdm_pcm words } := h

/-- A tick writes to the buffer handed out before exactly when it is taken with a start
pending and that buffer is the ping buffer. -/
theorem not_written_by_next_tick (p : Ptr) (s : State) (q : Ptr) (n : Nat)
    (h : HandedOut p s) :
    p ∉ written_buffers (audio_in_endpoint_callback s q n).effects ↔
      ¬ (s.audio_in_start_recording = true ∧ p = Ptr.audio_in_pcm_buffer_ping) := by
  unfold audio_in_endpoint_callback
  by_cases hs : s.audio_in_start_recording = true
  · simp [hs, written_buffers]
  · by_cases hr : s.audio_in_is_recording = true
    · rcases h hr with hp | hp
      · by_cases hb : s.audio_in_pcm_buffer = Ptr.audio_in_pcm_buffer_ping
        · simp [hs, hr, hb, hp, written_buffers]
        · simp [hs, hr, hb, hp, written_buffers]
      · by_cases hb : s.audio_in_pcm_buffer = Ptr.audio_in_pcm_buffer_ping <;>
          simp [hs, hr, hb, hp, written_buffers]
    · simp [hs, hr, written_buffers]

/-- The first tick of a run writes to the buffer handed out before the run exactly when
it is taken with a start pending and that buffer is the ping buffer. -/
theorem first_tick_not_written (cfg : USBD_AUDIO_IF_CONF) (p : Ptr) (inputs : List Input) :
    ∀ (s : State) (r : TickRecord), HandedOut p s →
      (tick_log cfg s inputs)[0]? = some r →
      (p ∉ written_buffers r.result.effects ↔
        ¬ (r.before.audio_in_start_recording = true ∧ p = Ptr.audio_in_pcm_buffer_ping)) := by
  induction inputs with
  | nil => intro s r _ h0; simp [tick_log] at h0
  | cons inp rest ih =>
    intro s r hinv h0
    cases inp with
    | control ev u cs buf nb i a =>
      exact ih _ r (handed_out_after_control cfg p s ev u cs buf nb i a hinv) h0
    | tick q n =>
      simp only [tick_log, List.getElem?_cons_zero, Option.some.injEq] at h0
      subst h0
      exact not_written_by_next_tick p s q n hinv
    | capture words =>
      exact ih _ r (handed_out_after_capture p s words hinv) h0

/-- Two consecutive ticks of a run from any state: the later one writes to the buffer
the earlier one handed out exactly when it is taken with a start pending and that
buffer is the ping buffer. -/
theorem consecutive_ticks_from (cfg : USBD_AUDIO_IF_CONF) (inputs : List Input) :
    ∀ (s : State) (n : Nat) (r1 r2 : TickRecord),
      (tick_log cfg s inputs)[n]? = some r1 →
      (tick_log cfg s inputs)[n + 1]? = some r2 →
      (r1.result.ppNextBuffer ∉ written_buffers r2.result.effects ↔
        ¬ (r2.before.audio_in_start_recording = true ∧
          r1.result.ppNextBuffer = Ptr.audio_in_pcm_buffer_ping)) := by
  induction inputs with
  | nil => intro s n r1 r2 h1; simp [tick_log] at h1
  | cons inp rest ih =>
    intro s n r1 r2 h1 h2
    cases inp with
    | control ev u cs buf nb i a => exact ih _ n r1 r2 h1 h2
    | capture words => exact ih _ n r1 r2 h1 h2
    | tick q m =>
      simp only [tick_log] at h1 h2
      cases n with
      | zero =>
        simp only [List.getElem?_cons_zero, Option.some.injEq] at h1
        simp only [Nat.zero_add, List.getElem?_cons_succ] at h2
        subst h1
        exact first_tick_not_written cfg _ rest _ r2 (handed_out_after_tick s q m) h2
      | succ k =>
        simp only [List.getElem?_cons_succ] at h1 h2
        exact ih _ k r1 r2 h1 h2

/-- A run in which a second `USB_AUDIO_RECORD_START` arrives while recording: start,
tick, start, tick. -/
def restart_inputs : List Input :=
  [Input.control AudioEvent.USB_AUDIO_RECORD_START 0 (AudioControl.other 0) [] 0 0 1,
   Input.tick Ptr.null 0,
   Input.control AudioEvent.USB_AUDIO_RECORD_START 0 (AudioControl.other 0) [] 0 0 1,
   Input.tick Ptr.null 0]

/-- C6, refuted as stated: in the run start, tick, start, tick from the initial state,
tick 0 hands the ping buffer to the transport and tick 1, taken while already recording
with a start pending, zero-fills that same ping buffer. -/
theorem double_buffer_counterexample :
    ((tick_log (microphone_config ⟨0⟩) initial_state restart_inputs)[0]?).map
        (fun r => r.result.ppNextBuffer) = some Ptr.audio_in_pcm_buffer_ping ∧
    ((tick_log (microphone_config ⟨0⟩) initial_state restart_inputs)[1]?).map
        (fun r => (r.before.audio_in_start_recording, r.before.audio_in_is_recording))
      = some (true, true) ∧
    ((tick_log (microphone_config ⟨0⟩) initial_state restart_inputs)[1]?).map
        (fun r => written_buffers r.result.effects) = some [Ptr.audio_in_pcm_buffer_ping] := by
  decide

/-- C6, amended: in every run from the initial state and for every n, the buffer handed
to the transport on tick n is not among the buffers tick n+1 writes to, except exactly
when tick n+1 is taken with a start pending and tick n handed out the ping buffer; in
particular the exclusion holds on every tick n+1 taken with no start pending, and on
every start tick that follows a tick which handed out anything but ping. -/
theorem double_buffer_exclusive (cfg : USBD_AUDIO_IF_CONF) (inputs : List Input) (n : Nat)
    (r1 r2 : TickRecord)
    (h1 : (tick_log cfg initial_state inputs)[n]? = some r1)
    (h2 : (tick_log cfg initial_state inputs)[n + 1]? = some r2) :
    (r1.result.ppNextBuffer ∉ written_buffers r2.result.effects ↔
      ¬ (r2.before.audio_in_start_recording = true ∧
        r1.result.ppNextBuffer = Ptr.audio_in_pcm_buffer_ping)) ∧
    (r2.before.audio_in_start_recording = false →
      r1.result.ppNextBuffer ∉ written_buffers r2.result.effects) ∧
    (r1.result.ppNextBuffer ≠ Ptr.audio_in_pcm_buffer_ping →
      r1.result.ppNextBuffer ∉ written_buffers r2.result.effects) := by
  have hiff := consecutive_ticks_from cfg inputs initial_state n r1 r2 h1 h2
  refine ⟨hiff, ?_, ?_⟩
  · intro hns
    apply hiff.2
    rintro ⟨hs, _⟩
    rw [hns] at hs
    exact absurd hs (by decide)
  · intro hne
    apply hiff.2
    rintro ⟨_, hp⟩
    exact hne hp

/-- A run with a start followed by a recording tick: start, tick, four words captured,
tick. -/
def recording_inputs : List Input :=
  [Input.control AudioEvent.USB_AUDIO_RECORD_START 0 (AudioControl.other 0) [] 0 0 1,
   Input.tick Ptr.null 0,
   Input.capture [1, 2, 3, 4],
   Input.tick Ptr.null 0]

/-- Tick 0 of `recording_inputs`. -/
def recording_inputs_tick0 : TickRecord where
  before := audio_in_enable initial_state
  result := audio_in_endpoint_callback (audio_in_enable initial_state) Ptr.null 0

/-- Tick 1 of `recording_inputs`. -/
def recording_inputs_tick1 : TickRecord where
  before :=
    { recording_inputs_tick0.result.state with
      pdm_pcm := pdm_pcm_capture recording_inputs_tick0.result.state.pdm_pcm [1, 2, 3, 4] }
  result :=
    audio_in_endpoint_callback
      { recording_inputs_tick0.result.state with
        pdm_pcm := pdm_pcm_capture recording_inputs_tick0.result.state.pdm_pcm [1, 2, 3, 4] }
      Ptr.null 0

/-- A run in which `USB_AUDIO_RECORD_START` arrives again after the pong buffer was
handed out: start, tick, four words captured, tick, start, tick. -/
def restart_after_pong_inputs : List Input :=
  [Input.control AudioEvent.USB_AUDIO_RECORD_START 0 (AudioControl.other 0) [] 0 0 1,
   Input.tick Ptr.null 0,
   Input.capture [1, 2, 3, 4],
   Input.tick Ptr.null 0,
   Input.control AudioEvent.USB_AUDIO_RECORD_START 0 (AudioControl.other 0) [] 0 0 1,
   Input.tick Ptr.null 0]

/-- Tick 2 of `restart_after_pong_inputs`; its ticks 0 and 1 are those of
`recording_inputs`. -/
def restart_after_pong_tick2 : TickRecord where
  before := audio_in_enable recording_inputs_tick1.result.state
  result :=
    audio_in_endpoint_callback (audio_in_enable recording_inputs_tick1.result.state)
      Ptr.null 0

theorem double_buffer_exclusive_witness :
    (recording_inputs_tick0.result.ppNextBuffer = Ptr.audio_in_pcm_buffer_ping ∧
      written_buffers recording_inputs_tick1.result.effects = [Ptr.audio_in_pcm_buffer_pong] ∧
      recording_inputs_tick0.result.ppNextBuffer
        ∉ written_buffers recording_inputs_tick1.result.effects) ∧
    (restart_after_pong_tick2.before.audio_in_start_recording = true ∧
      recording_inputs_tick1.result.ppNextBuffer = Ptr.audio_in_pcm_buffer_pong ∧
      written_buffers restart_after_pong_tick2.result.effects
        = [Ptr.audio_in_pcm_buffer_ping] ∧
      recording_inputs_tick1.result.ppNextBuffer
        ∉ written_buffers restart_after_pong_tick2.result.effects) :=
  ⟨⟨by decide, by decide,
      (double_buffer_exclusive (microphone_config ⟨0⟩) recording_inputs 0
        recording_inputs_tick0 recording_inputs_tick1 (by decide) (by decide)).2.1
        (by decide)⟩,
    ⟨by decide, by decide, by decide,
      (double_buffer_exclusive (microphone_config ⟨0⟩) restart_after_pong_inputs 1
        recording_inputs_tick1 restart_after_pong_tick2 (by decide) (by decide)).2.2
        (by decide)⟩⟩

/-! ## Capacity of the buffers -/

theorem load_buffer_length (s : State) (p : Ptr)
    (hping : s.audio_in_pcm_buffer_ping.length = MAX_AUDIO_IN_PACKET_SIZE_WORDS)
    (hpong : s.audio_in_pcm_buffer_pong.length = MAX_AUDIO_IN_PACKET_SIZE_WORDS)
    (hp : p = Ptr.audio_in_pcm_buffer_ping ∨ p = Ptr.audio_in_pcm_buffer_pong) :
    (load_buffer s p).length = MAX_AUDIO_IN_PACKET_SIZE_WORDS := by
  rcases hp with rfl | rfl
  · exact hping
  · exact hpong

theorem read_length (p : PdmPcm) (dest : List Nat) (want : Nat) (h : want ≤ dest.length) :
    (cyhal_pdm_pcm_read p dest want).2.1.length = dest.length := by
  simp only [cyhal_pdm_pcm_read, List.length_append, List.length_take, List.length_drop]
  omega

theorem read_got_le (p : PdmPcm) (dest : List Nat) (want : Nat) :
    (cyhal_pdm_pcm_read p dest want).2.2 ≤ want ∧
    (cyhal_pdm_pcm_read p dest want).2.2 ≤ Cy_PDM_PCM_GetNumInFifo p := by
  simp only [cyhal_pdm_pcm_read, Cy_PDM_PCM_GetNumInFifo]
  omega

/-- The word count of the sizing policy never exceeds the capacity of a buffer. -/
theorem sizing_le_capacity (level : Nat) :
    (if level > MAX_AUDIO_IN_PACKET_SIZE_WORDS then MAX_AUDIO_IN_PACKET_SIZE_WORDS
      else MAX_AUDIO_IN_PACKET_SIZE_WORDS - ADDITIONAL_AUDIO_IN_SAMPLE_SIZE_WORDS)
      ≤ MAX_AUDIO_IN_PACKET_SIZE_WORDS := by
  split_ifs
  · exact Nat.le_refl _
  · exact Nat.sub_le _ _

/-- C7: for every state (every FIFO level included) one call of
`audio_in_endpoint_callback` requests at most `MAX_AUDIO_IN_PACKET_SIZE_WORDS` = 90 words
from the capture source in each read, receives no more than it requested, and reads into
the ping or the pong buffer; each `memset` is on the ping buffer and covers exactly
`MAX_AUDIO_IN_PACKET_SIZE_BYTES` = 2 * 90 bytes; and two buffers of the declared length
of 90 words still have that length after the call. -/
theorem tick_writes_within_capacity (s : State) (ppNextBuffer : Ptr) (pNextPacketSize : Nat) :
    (∀ dest want got,
      Effect.pdm_pcm_read dest want got
          ∈ (audio_in_endpoint_callback s ppNextBuffer pNextPacketSize).effects →
        want ≤ MAX_AUDIO_IN_PACKET_SIZE_WORDS ∧ got ≤ want ∧
        got ≤ MAX_AUDIO_IN_PACKET_SIZE_WORDS ∧
        (dest = Ptr.audio_in_pcm_buffer_ping ∨ dest = Ptr.audio_in_pcm_buffer_pong)) ∧
    (∀ dest nbytes,
      Effect.memset dest nbytes
          ∈ (audio_in_endpoint_callback s ppNextBuffer pNextPacketSize).effects →
        dest = Ptr.audio_in_pcm_buffer_ping ∧ nbytes = MAX_AUDIO_IN_PACKET_SIZE_BYTES ∧
        nbytes = 2 * MAX_AUDIO_IN_PACKET_SIZE_WORDS) ∧
    MAX_AUDIO_IN_PACKET_SIZE_WORDS = 90 ∧
    (s.audio_in_pcm_buffer_ping.length = MAX_AUDIO_IN_PACKET_SIZE_WORDS →
      s.audio_in_pcm_buffer_pong.length = MAX_AUDIO_IN_PACKET_SIZE_WORDS →
      (audio_in_endpoint_callback s ppNextBuffer pNextPacketSize).state.audio_in_pcm_buffer_ping.length
          = MAX_AUDIO_IN_PACKET_SIZE_WORDS ∧
      (audio_in_endpoint_callback s ppNextBuffer pNextPacketSize).state.audio_in_pcm_buffer_pong.length
          = MAX_AUDIO_IN_PACKET_SIZE_WORDS) := by
  by_cases hs : s.audio_in_start_recording = true
  · refine ⟨?_, ?_, by decide, ?_⟩
    · intro dest want got hmem
      simp [audio_in_endpoint_callback, hs] at hmem
    · intro dest nbytes hmem
      simp only [audio_in_endpoint_callback, hs, if_true, List.mem_cons, Effect.memset.injEq,
        List.mem_singleton, reduceCtorEq, or_false, List.not_mem_nil] at hmem
      obtain ⟨rfl, rfl⟩ := hmem
      exact ⟨rfl, rfl, by decide⟩
    · intro hping hpong
      simp [audio_in_endpoint_callback, hs, memset_zero_length, hping, hpong]
  · by_cases hr : s.audio_in_is_recording = true
    · have hsz := sizing_le_capacity (Cy_PDM_PCM_GetNumInFifo s.pdm_pcm)
      refine ⟨?_, ?_, by decide, ?_⟩
      · intro dest want got hmem
        simp only [audio_in_endpoint_callback, hs, hr, if_true, if_false, List.mem_cons,
          Effect.pdm_pcm_read.injEq, List.mem_singleton, reduceCtorEq, false_or, or_false,
          List.not_mem_nil] at hmem
        obtain ⟨rfl, rfl, rfl⟩ := hmem
        have hgot := (read_got_le s.pdm_pcm
          (load_buffer { s with audio_in_pcm_buffer :=
              if s.audio_in_pcm_buffer = Ptr.audio_in_pcm_buffer_ping then
                Ptr.audio_in_pcm_buffer_pong else Ptr.audio_in_pcm_buffer_ping }
            (if s.audio_in_pcm_buffer = Ptr.audio_in_pcm_buffer_ping then
                Ptr.audio_in_pcm_buffer_pong else Ptr.audio_in_pcm_buffer_ping))
          (if Cy_PDM_PCM_GetNumInFifo s.pdm_pcm > MAX_AUDIO_IN_PACKET_SIZE_WORDS then
              MAX_AUDIO_IN_PACKET_SIZE_WORDS
            else MAX_AUDIO_IN_PACKET_SIZE_WORDS - ADDITIONAL_AUDIO_IN_SAMPLE_SIZE_WORDS)).1
        refine ⟨hsz, hgot, le_trans hgot hsz, ?_⟩
        by_cases hb : s.audio_in_pcm_buffer = Ptr.audio_in_pcm_buffer_ping <;> simp [hb]
      · intro dest nbytes hmem
        simp [audio_in_endpoint_callback, hs, hr] at hmem
      · intro hping hpong
        by_cases hb : s.audio_in_pcm_buffer = Ptr.audio_in_pcm_buffer_ping
        · have hl := read_length s.pdm_pcm s.audio_in_pcm_buffer_pong _
            (le_of_le_of_eq hsz hpong.symm)
          rw [hpong] at hl
          simp only [gt_iff_lt] at hl
          simp [audio_in_endpoint_callback, hs, hr, hb, store_buffer, load_buffer, hping,
            hpong, hl]
        · have hl := read_length s.pdm_pcm s.audio_in_pcm_buffer_ping _
            (le_of_le_of_eq hsz hping.symm)
          rw [hping] at hl
          simp only [gt_iff_lt] at hl
          simp [audio_in_endpoint_callback, hs, hr, hb, store_buffer, load_buffer, hping,
            hpong, hl]
    · refine ⟨?_, ?_, by decide, ?_⟩
      · intro dest want got hmem
        simp [audio_in_endpoint_callback, hs, hr] at hmem
      · intro dest nbytes hmem
        simp [audio_in_endpoint_callback, hs, hr] at hmem
      · intro hping hpong
        simp [audio_in_endpoint_callback, hs, hr, hping, hpong]

/-- A state in the middle of a recording session: the recording flag set, no start
pending, the ping buffer selected and `fifo` queued in the capture source. -/
def recording_state (fifo : List Nat) : State :=
  { initial_state with
    audio_in_is_recording := true
    audio_in_pcm_buffer := Ptr.audio_in_pcm_buffer_ping
    pdm_pcm := { fifo := fifo, running := true } }

theorem tick_writes_within_capacity_witness :
    Effect.pdm_pcm_read Ptr.audio_in_pcm_buffer_pong 90 90
      ∈ (audio_in_endpoint_callback (recording_state (List.replicate 91 1)) Ptr.null 0).effects ∧
    (90 ≤ MAX_AUDIO_IN_PACKET_SIZE_WORDS ∧ 90 ≤ 90 ∧ 90 ≤ MAX_AUDIO_IN_PACKET_SIZE_WORDS ∧
      (Ptr.audio_in_pcm_buffer_pong = Ptr.audio_in_pcm_buffer_ping ∨
        Ptr.audio_in_pcm_buffer_pong = Ptr.audio_in_pcm_buffer_pong)) ∧
    (audio_in_endpoint_callback (recording_state (List.replicate 91 1))
        Ptr.null 0).state.audio_in_pcm_buffer_pong.length = MAX_AUDIO_IN_PACKET_SIZE_WORDS :=
  ⟨by decide,
    (tick_writes_within_capacity (recording_state (List.replicate 91 1)) Ptr.null 0).1
      Ptr.audio_in_pcm_buffer_pong 90 90 (by decide),
    ((tick_writes_within_capacity (recording_state (List.replicate 91 1)) Ptr.null
      0).2.2.2 (by decide) (by decide)).2⟩

/-! ## The sizing policy -/

/-- C8: on every recording tick (no start pending, recording flag set) exactly one read
is issued, and the number of words it requests depends on the FIFO level `L` only: it
is the capacity `MAX_AUDIO_IN_PACKET_SIZE_WORDS` when `L` exceeds the capacity, and the
capacity minus `ADDITIONAL_AUDIO_IN_SAMPLE_SIZE_WORDS` for every `L` up to the capacity. -/
theorem recording_tick_request (s : State) (ppNextBuffer : Ptr) (pNextPacketSize : Nat)
    (h : Recording s) :
    requested_words (audio_in_endpoint_callback s ppNextBuffer pNextPacketSize).effects
      = [if Cy_PDM_PCM_GetNumInFifo s.pdm_pcm > MAX_AUDIO_IN_PACKET_SIZE_WORDS then
          MAX_AUDIO_IN_PACKET_SIZE_WORDS
        else MAX_AUDIO_IN_PACKET_SIZE_WORDS - ADDITIONAL_AUDIO_IN_SAMPLE_SIZE_WORDS] := by
  obtain ⟨hs, hr⟩ := h
  simp [audio_in_endpoint_callback, hs, hr, requested_words]

theorem recording_tick_request_witness :
    Recording (recording_state (List.replicate 91 0)) ∧
    requested_words (audio_in_endpoint_callback (recording_state (List.replicate 91 0))
      Ptr.null 0).effects
      = [if Cy_PDM_PCM_GetNumInFifo (recording_state (List.replicate 91 0)).pdm_pcm
            > MAX_AUDIO_IN_PACKET_SIZE_WORDS then
          MAX_AUDIO_IN_PACKET_SIZE_WORDS
        else MAX_AUDIO_IN_PACKET_SIZE_WORDS - ADDITIONAL_AUDIO_IN_SAMPLE_SIZE_WORDS] :=
  ⟨by decide, recording_tick_request (recording_state (List.replicate 91 0)) Ptr.null 0
    (by decide)⟩

/-- C9, refuted as stated: on a recording tick with exactly
`MAX_AUDIO_IN_PACKET_SIZE_WORDS` = 90 words in the FIFO the read requests 88 words, not
the capacity of 90. -/
theorem request_at_capacity_counterexample :
    Recording (recording_state (List.replicate 90 0)) ∧
    Cy_PDM_PCM_GetNumInFifo (recording_state (List.replicate 90 0)).pdm_pcm
      = MAX_AUDIO_IN_PACKET_SIZE_WORDS ∧
    requested_words (audio_in_endpoint_callback (recording_state (List.replicate 90 0))
      Ptr.null 0).effects = [88] ∧
    requested_words (audio_in_endpoint_callback (recording_state (List.replicate 90 0))
      Ptr.null 0).effects ≠ [MAX_AUDIO_IN_PACKET_SIZE_WORDS] := by
  decide

/-- C9, amended: on a recording tick with the FIFO level exactly equal to the capacity
`MAX_AUDIO_IN_PACKET_SIZE_WORDS` the read requests the capacity minus
`ADDITIONAL_AUDIO_IN_SAMPLE_SIZE_WORDS` (88 words); the capacity itself is requested at
every FIFO level from one word above the capacity on. -/
theorem request_at_capacity (s : State) (ppNextBuffer : Ptr) (pNextPacketSize : Nat)
    (h : Recording s) :
    (Cy_PDM_PCM_GetNumInFifo s.pdm_pcm = MAX_AUDIO_IN_PACKET_SIZE_WORDS →
      requested_words (audio_in_endpoint_callback s ppNextBuffer pNextPacketSize).effects
        = [MAX_AUDIO_IN_PACKET_SIZE_WORDS - ADDITIONAL_AUDIO_IN_SAMPLE_SIZE_WORDS]) ∧
    (Cy_PDM_PCM_GetNumInFifo s.pdm_pcm ≥ MAX_AUDIO_IN_PACKET_SIZE_WORDS + 1 →
      requested_words (audio_in_endpoint_callback s ppNextBuffer pNextPacketSize).effects
        = [MAX_AUDIO_IN_PACKET_SIZE_WORDS]) ∧
    MAX_AUDIO_IN_PACKET_SIZE_WORDS - ADDITIONAL_AUDIO_IN_SAMPLE_SIZE_WORDS = 88 ∧
    MAX_AUDIO_IN_PACKET_SIZE_WORDS = 90 := by
  obtain ⟨hs, hr⟩ := h
  refine ⟨?_, ?_, by decide, by decide⟩
  · intro hl
    simp [audio_in_endpoint_callback, hs, hr, requested_words, hl]
  · intro hl
    have hgt : MAX_AUDIO_IN_PACKET_SIZE_WORDS < Cy_PDM_PCM_GetNumInFifo s.pdm_pcm := hl
    simp [audio_in_endpoint_callback, hs, hr, requested_words, hgt]

theorem request_at_capacity_witness :
    Recording (recording_state (List.replicate 90 0)) ∧
    Cy_PDM_PCM_GetNumInFifo (recording_state (List.replicate 90 0)).pdm_pcm
      = MAX_AUDIO_IN_PACKET_SIZE_WORDS ∧
    requested_words (audio_in_endpoint_callback (recording_state (List.replicate 90 0))
      (Ptr.other 1) 3).effects
      = [MAX_AUDIO_IN_PACKET_SIZE_WORDS - ADDITIONAL_AUDIO_IN_SAMPLE_SIZE_WORDS] ∧
    Recording (recording_state (List.replicate 95 0)) ∧
    Cy_PDM_PCM_GetNumInFifo (recording_state (List.replicate 95 0)).pdm_pcm
      ≥ MAX_AUDIO_IN_PACKET_SIZE_WORDS + 1 ∧
    requested_words (audio_in_endpoint_callback (recording_state (List.replicate 95 0))
      (Ptr.other 1) 3).effects = [MAX_AUDIO_IN_PACKET_SIZE_WORDS] :=
  ⟨by decide, by decide,
    (request_at_capacity (recording_state (List.replicate 90 0)) (Ptr.other 1) 3
      (by decide)).1 (by decide),
    by decide, by decide,
    (request_at_capacity (recording_state (List.replicate 95 0)) (Ptr.other 1) 3
      (by decide)).2.1 (by decide)⟩

/-- C10, refuted as stated: with the compiled configuration a recording tick with 60
words in the FIFO requests 88 words, not 86. -/
theorem request_at_level_60_counterexample :
    Recording (recording_state (List.replicate 60 0)) ∧
    Cy_PDM_PCM_GetNumInFifo (recording_state (List.replicate 60 0)).pdm_pcm = 60 ∧
    requested_words (audio_in_endpoint_callback (recording_state (List.replicate 60 0))
      Ptr.null 0).effects = [88] ∧
    requested_words (audio_in_endpoint_callback (recording_state (List.replicate 60 0))
      Ptr.null 0).effects ≠ [86] := by
  decide

/-- C10, amended: with the compiled configuration (44100 Hz, 16 bit, 2 channels: nominal
88 words per interval, 2 additional words, buffers of 90 words) a recording tick with
FIFO level 90 requests 88 words, and a recording tick with FIFO level 60 requests 88
words as well. -/
theorem request_compiled_configuration (s : State) (ppNextBuffer : Ptr)
    (pNextPacketSize : Nat) (h : Recording s) :
    (Cy_PDM_PCM_GetNumInFifo s.pdm_pcm = 90 →
      requested_words (audio_in_endpoint_callback s ppNextBuffer pNextPacketSize).effects
        = [88]) ∧
    (Cy_PDM_PCM_GetNumInFifo s.pdm_pcm = 60 →
      requested_words (audio_in_endpoint_callback s ppNextBuffer pNextPacketSize).effects
        = [88]) ∧
    AUDIO_IN_SAMPLE_FREQ = 44100 ∧ AUDIO_IN_BIT_RESOLUTION = 16 ∧ AUDIO_IN_NUM_CHANNELS = 2 ∧
    MAX_AUDIO_IN_PACKET_SIZE_WORDS - ADDITIONAL_AUDIO_IN_SAMPLE_SIZE_WORDS = 88 ∧
    ADDITIONAL_AUDIO_IN_SAMPLE_SIZE_WORDS = 2 ∧ MAX_AUDIO_IN_PACKET_SIZE_WORDS = 90 := by
  obtain ⟨hs, hr⟩ := h
  refine ⟨?_, ?_, by decide, by decide, by decide, by decide, by decide, by decide⟩
  · intro hl
    simp [audio_in_endpoint_callback, hs, hr, requested_words, hl]
    decide
  · intro hl
    simp [audio_in_endpoint_callback, hs, hr, requested_words, hl]
    decide

theorem request_compiled_configuration_witness :
    Recording (recording_state (List.replicate 60 5)) ∧
    Cy_PDM_PCM_GetNumInFifo (recording_state (List.replicate 60 5)).pdm_pcm = 60 ∧
    requested_words (audio_in_endpoint_callback (recording_state (List.replicate 60 5))
      Ptr.null 0).effects = [88] :=
  ⟨by decide, by decide,
    (request_compiled_configuration (recording_state (List.replicate 60 5)) Ptr.null 0
      (by decide)).2.1 (by decide)⟩

/-! ## The reported length -/

/-- The outcome of a recording tick: words delivered, reported length and pointer. -/
theorem recording_tick_facts (s : State) (ppNextBuffer : Ptr) (pNextPacketSize : Nat)
    (h : Recording s) :
    got_words (audio_in_endpoint_callback s ppNextBuffer pNextPacketSize).effects
      = [min (if Cy_PDM_PCM_GetNumInFifo s.pdm_pcm > MAX_AUDIO_IN_PACKET_SIZE_WORDS then
            MAX_AUDIO_IN_PACKET_SIZE_WORDS
          else MAX_AUDIO_IN_PACKET_SIZE_WORDS - ADDITIONAL_AUDIO_IN_SAMPLE_SIZE_WORDS)
          (Cy_PDM_PCM_GetNumInFifo s.pdm_pcm)] ∧
    (audio_in_endpoint_callback s ppNextBuffer pNextPacketSize).pNextPacketSize
      = min (if Cy_PDM_PCM_GetNumInFifo s.pdm_pcm > MAX_AUDIO_IN_PACKET_SIZE_WORDS then
            MAX_AUDIO_IN_PACKET_SIZE_WORDS
          else MAX_AUDIO_IN_PACKET_SIZE_WORDS - ADDITIONAL_AUDIO_IN_SAMPLE_SIZE_WORDS)
          (Cy_PDM_PCM_GetNumInFifo s.pdm_pcm) * AUDIO_IN_SUB_FRAME_SIZE ∧
    AUDIO_IN_SUB_FRAME_SIZE = 2 ∧
    min (if Cy_PDM_PCM_GetNumInFifo s.pdm_pcm > MAX_AUDIO_IN_PACKET_SIZE_WORDS then
            MAX_AUDIO_IN_PACKET_SIZE_WORDS
          else MAX_AUDIO_IN_PACKET_SIZE_WORDS - ADDITIONAL_AUDIO_IN_SAMPLE_SIZE_WORDS)
        (Cy_PDM_PCM_GetNumInFifo s.pdm_pcm) ≤ Cy_PDM_PCM_GetNumInFifo s.pdm_pcm ∧
    (Cy_PDM_PCM_GetNumInFifo s.pdm_pcm
        < (if Cy_PDM_PCM_GetNumInFifo s.pdm_pcm > MAX_AUDIO_IN_PACKET_SIZE_WORDS then
            MAX_AUDIO_IN_PACKET_SIZE_WORDS
          else MAX_AUDIO_IN_PACKET_SIZE_WORDS - ADDITIONAL_AUDIO_IN_SAMPLE_SIZE_WORDS) →
      (audio_in_endpoint_callback s ppNextBuffer pNextPacketSize).pNextPacketSize
        = 2 * Cy_PDM_PCM_GetNumInFifo s.pdm_pcm) ∧
    (Cy_PDM_PCM_GetNumInFifo s.pdm_pcm = 0 →
      (audio_in_endpoint_callback s ppNextBuffer pNextPacketSize).pNextPacketSize = 0) ∧
    (audio_in_endpoint_callback s ppNextBuffer pNextPacketSize).ppNextBuffer
      = (if s.mic_mute = 1 then Ptr.silent_frame
        else if s.audio_in_pcm_buffer = Ptr.audio_in_pcm_buffer_ping then
          Ptr.audio_in_pcm_buffer_pong
        else Ptr.audio_in_pcm_buffer_ping) := by
  obtain ⟨hs, hr⟩ := h
  have hsz := sizing_le_capacity (Cy_PDM_PCM_GetNumInFifo s.pdm_pcm)
  have h90 : MAX_AUDIO_IN_PACKET_SIZE_WORDS = 90 := by decide
  have h2 : AUDIO_IN_SUB_FRAME_SIZE = 2 := rfl
  have hsize : (audio_in_endpoint_callback s ppNextBuffer pNextPacketSize).pNextPacketSize
      = min (if Cy_PDM_PCM_GetNumInFifo s.pdm_pcm > MAX_AUDIO_IN_PACKET_SIZE_WORDS then
            MAX_AUDIO_IN_PACKET_SIZE_WORDS
          else MAX_AUDIO_IN_PACKET_SIZE_WORDS - ADDITIONAL_AUDIO_IN_SAMPLE_SIZE_WORDS)
          (Cy_PDM_PCM_GetNumInFifo s.pdm_pcm) * AUDIO_IN_SUB_FRAME_SIZE := by
    simp only [audio_in_endpoint_callback, hs, hr, if_true, cyhal_pdm_pcm_read,
      Cy_PDM_PCM_GetNumInFifo, U32_MOD, Bool.false_eq_true, if_false]
    apply Nat.mod_eq_of_lt
    simp only [Cy_PDM_PCM_GetNumInFifo] at hsz
    rw [h2]
    omega
  refine ⟨?_, hsize, rfl, Nat.min_le_right _ _, ?_, ?_, ?_⟩
  · simp [audio_in_endpoint_callback, hs, hr, got_words, cyhal_pdm_pcm_read,
      Cy_PDM_PCM_GetNumInFifo]
  · intro hlt
    rw [hsize, h2, Nat.min_eq_right (Nat.le_of_lt hlt), Nat.mul_comm]
  · intro h0
    rw [hsize, h0, Nat.min_zero, Nat.zero_mul]
  · by_cases hm : s.mic_mute = 1 <;> simp [audio_in_endpoint_callback, hs, hr, hm]

/-- C11: on every recording tick, with `L` words queued and `W` words requested by the
sizing policy, the read delivers `min W L` words, which is at most `L`, and the reported
length is exactly that count times `AUDIO_IN_SUB_FRAME_SIZE` = 2; when `L` is below `W`
the length is `2 * L`, and 0 for an empty FIFO; the pointer handed out is the silent
frame or the newly selected PCM buffer, whatever the output parameters held before. -/
theorem recording_tick_length (s : State) (ppNextBuffer : Ptr) (pNextPacketSize : Nat)
    (h : Recording s) :
    got_words (audio_in_endpoint_callback s ppNextBuffer pNextPacketSize).effects
      = [min (if Cy_PDM_PCM_GetNumInFifo s.pdm_pcm > MAX_AUDIO_IN_PACKET_SIZE_WORDS then
            MAX_AUDIO_IN_PACKET_SIZE_WORDS
          else MAX_AUDIO_IN_PACKET_SIZE_WORDS - ADDITIONAL_AUDIO_IN_SAMPLE_SIZE_WORDS)
          (Cy_PDM_PCM_GetNumInFifo s.pdm_pcm)] ∧
    (audio_in_endpoint_callback s ppNextBuffer pNextPacketSize).pNextPacketSize
      = min (if Cy_PDM_PCM_GetNumInFifo s.pdm_pcm > MAX_AUDIO_IN_PACKET_SIZE_WORDS then
            MAX_AUDIO_IN_PACKET_SIZE_WORDS
          else MAX_AUDIO_IN_PACKET_SIZE_WORDS - ADDITIONAL_AUDIO_IN_SAMPLE_SIZE_WORDS)
          (Cy_PDM_PCM_GetNumInFifo s.pdm_pcm) * AUDIO_IN_SUB_FRAME_SIZE ∧
    AUDIO_IN_SUB_FRAME_SIZE = 2 ∧
    min (if Cy_PDM_PCM_GetNumInFifo s.pdm_pcm > MAX_AUDIO_IN_PACKET_SIZE_WORDS then
            MAX_AUDIO_IN_PACKET_SIZE_WORDS
          else MAX_AUDIO_IN_PACKET_SIZE_WORDS - ADDITIONAL_AUDIO_IN_SAMPLE_SIZE_WORDS)
        (Cy_PDM_PCM_GetNumInFifo s.pdm_pcm) ≤ Cy_PDM_PCM_GetNumInFifo s.pdm_pcm ∧
    (Cy_PDM_PCM_GetNumInFifo s.pdm_pcm
        < (if Cy_PDM_PCM_GetNumInFifo s.pdm_pcm > MAX_AUDIO_IN_PACKET_SIZE_WORDS then
            MAX_AUDIO_IN_PACKET_SIZE_WORDS
          else MAX_AUDIO_IN_PACKET_SIZE_WORDS - ADDITIONAL_AUDIO_IN_SAMPLE_SIZE_WORDS) →
      (audio_in_endpoint_callback s ppNextBuffer pNextPacketSize).pNextPacketSize
        = 2 * Cy_PDM_PCM_GetNumInFifo s.pdm_pcm) ∧
    (Cy_PDM_PCM_GetNumInFifo s.pdm_pcm = 0 →
      (audio_in_endpoint_callback s ppNextBuffer pNextPacketSize).pNextPacketSize = 0) ∧
    (audio_in_endpoint_callback s ppNextBuffer pNextPacketSize).ppNextBuffer
      = (if s.mic_mute = 1 then Ptr.silent_frame
        else if s.audio_in_pcm_buffer = Ptr.audio_in_pcm_buffer_ping then
          Ptr.audio_in_pcm_buffer_pong
        else Ptr.audio_in_pcm_buffer_ping) :=
  recording_tick_facts s ppNextBuffer pNextPacketSize h

theorem recording_tick_length_witness :
    Recording (recording_state [1, 2, 3]) ∧
    (audio_in_endpoint_callback (recording_state [1, 2, 3]) Ptr.null 0).pNextPacketSize = 6 ∧
    (audio_in_endpoint_callback (recording_state [1, 2, 3]) Ptr.null 0).pNextPacketSize
      = 2 * Cy_PDM_PCM_GetNumInFifo (recording_state [1, 2, 3]).pdm_pcm :=
  ⟨by decide, by decide,
    (recording_tick_length (recording_state [1, 2, 3]) Ptr.null 0 (by decide)).2.2.2.2.1
      (by decide)⟩

/-! ## Mute -/

theorem words_to_bytes_zero (n : Nat) :
    words_to_bytes (List.replicate n 0) = List.replicate (2 * n) 0 := by
  induction n with
  | zero => rfl
  | succ k ih =>
    have h2 : 2 * (k + 1) = (2 * k + 1) + 1 := by omega
    rw [h2]
    simp [List.replicate_succ, words_to_bytes, ih]

/-- The reported length of a tick does not depend on `mic_mute`. -/
theorem tick_length_mute_independent (s : State) (m : Nat) (p : Ptr) (n : Nat) :
    (audio_in_endpoint_callback { s with mic_mute := m } p n).pNextPacketSize
      = (audio_in_endpoint_callback s p n).pNextPacketSize := by
  unfold audio_in_endpoint_callback
  by_cases hs : s.audio_in_start_recording = true
  · simp [hs]
  · by_cases hr : s.audio_in_is_recording = true
    · by_cases hb : s.audio_in_pcm_buffer = Ptr.audio_in_pcm_buffer_ping <;>
        simp [hs, hr, hb, load_buffer, cyhal_pdm_pcm_read]
    · simp [hs, hr]

/-- C12: on every tick that produces output (a start pending or the recording flag set)
while `mic_mute` is 1, the first `*pNextPacketSize` bytes at `*ppNextBuffer` exist and
are all zero, and that length is at most `MAX_AUDIO_IN_PACKET_SIZE_BYTES`, the size of
`silent_frame`; on a recording tick the pointer is `silent_frame` and the length is the
one the tick reports for any other value of `mic_mute`, twice the number of words read. -/
theorem muted_tick_output_zero (s : State) (ppNextBuffer : Ptr) (pNextPacketSize : Nat)
    (hmute : s.mic_mute = 1)
    (hout : s.audio_in_start_recording = true ∨ s.audio_in_is_recording = true)
    (hlen : s.audio_in_pcm_buffer_ping.length = MAX_AUDIO_IN_PACKET_SIZE_WORDS) :
    transport_bytes (audio_in_endpoint_callback s ppNextBuffer pNextPacketSize)
      = List.replicate
          (audio_in_endpoint_callback s ppNextBuffer pNextPacketSize).pNextPacketSize 0 ∧
    (audio_in_endpoint_callback s ppNextBuffer pNextPacketSize).pNextPacketSize
      ≤ MAX_AUDIO_IN_PACKET_SIZE_BYTES ∧
    silent_frame.length = MAX_AUDIO_IN_PACKET_SIZE_BYTES ∧
    (Recording s →
      (audio_in_endpoint_callback s ppNextBuffer pNextPacketSize).ppNextBuffer
        = Ptr.silent_frame ∧
      got_words (audio_in_endpoint_callback s ppNextBuffer pNextPacketSize).effects
        = [(audio_in_endpoint_callback s ppNextBuffer pNextPacketSize).pNextPacketSize / 2] ∧
      (audio_in_endpoint_callback s ppNextBuffer pNextPacketSize).pNextPacketSize % 2 = 0 ∧
      ∀ m, (audio_in_endpoint_callback { s with mic_mute := m } ppNextBuffer
          pNextPacketSize).pNextPacketSize
        = (audio_in_endpoint_callback s ppNextBuffer pNextPacketSize).pNextPacketSize) := by
  have h180 : MAX_AUDIO_IN_PACKET_SIZE_BYTES = 180 := by decide
  have h90 : MAX_AUDIO_IN_PACKET_SIZE_WORDS = 90 := by decide
  by_cases hs : s.audio_in_start_recording = true
  · have hz : memset_zero s.audio_in_pcm_buffer_ping MAX_AUDIO_IN_PACKET_SIZE_BYTES
        = List.replicate MAX_AUDIO_IN_PACKET_SIZE_WORDS 0 := by
      rw [memset_zero_all _ _ (by rw [hlen]; decide), hlen]
    have hsize : (audio_in_endpoint_callback s ppNextBuffer pNextPacketSize).pNextPacketSize
        = 176 := by
      simp [audio_in_endpoint_callback, hs]
      decide
    refine ⟨?_, by rw [hsize, h180]; omega, by simp [silent_frame], ?_⟩
    · rw [transport_bytes, hsize]
      simp only [audio_in_endpoint_callback, hs, if_true, bytes_at, hz, words_to_bytes_zero,
        List.take_replicate, h90]
      rfl
    · intro hrec
      rw [hrec.1] at hs
      exact absurd hs (by decide)
  · have hr : s.audio_in_is_recording = true := by
      rcases hout with h | h
      · exact absurd h hs
      · exact h
    have hs' : s.audio_in_start_recording = false := by
      cases hv : s.audio_in_start_recording
      · rfl
      · exact absurd hv hs
    have hlenfacts := recording_tick_facts s ppNextBuffer pNextPacketSize ⟨hs', hr⟩
    obtain ⟨hgot, hsize, h2, _, _, _, hptr⟩ := hlenfacts
    have hsz := sizing_le_capacity (Cy_PDM_PCM_GetNumInFifo s.pdm_pcm)
    have hle : (audio_in_endpoint_callback s ppNextBuffer pNextPacketSize).pNextPacketSize
        ≤ MAX_AUDIO_IN_PACKET_SIZE_BYTES := by
      rw [hsize, h2, h180]
      omega
    refine ⟨?_, hle, by simp [silent_frame], ?_⟩
    · rw [transport_bytes, hptr]
      simp only [hmute, if_true, bytes_at, silent_frame, List.take_replicate]
      rw [Nat.min_eq_left hle]
    · intro _
      refine ⟨by rw [hptr]; simp [hmute], ?_, ?_, ?_⟩
      · rw [hgot, hsize, h2, Nat.mul_div_cancel _ (by decide : 0 < 2)]
      · rw [hsize, h2, Nat.mul_mod_left]
      · intro m
        exact tick_length_mute_independent s m ppNextBuffer pNextPacketSize

/-- A muted recording state with five words queued and old samples in both buffers. -/
def muted_recording_state : State :=
  { initial_state with
    audio_in_is_recording := true
    mic_mute := 1
    audio_in_pcm_buffer := Ptr.audio_in_pcm_buffer_ping
    audio_in_pcm_buffer_ping := List.replicate MAX_AUDIO_IN_PACKET_SIZE_WORDS 0x1234
    audio_in_pcm_buffer_pong := List.replicate MAX_AUDIO_IN_PACKET_SIZE_WORDS 0x5678
    pdm_pcm := { fifo := [11, 12, 13, 14, 15], running := true } }

theorem muted_tick_output_zero_witness :
    muted_recording_state.mic_mute = 1 ∧
    muted_recording_state.audio_in_is_recording = true ∧
    (audio_in_endpoint_callback muted_recording_state Ptr.null 0).pNextPacketSize = 10 ∧
    transport_bytes (audio_in_endpoint_callback muted_recording_state Ptr.null 0)
      = List.replicate
          (audio_in_endpoint_callback muted_recording_state Ptr.null 0).pNextPacketSize 0 :=
  ⟨by decide, by decide, by decide,
    (muted_tick_output_zero muted_recording_state Ptr.null 0 (by decide)
      (Or.inr (by decide)) (by decide)).1⟩

/-! ## Mute and capture -/

theorem forget_mute_eq (s1 s2 : State) (h : forget_mute s1 = forget_mute s2) :
    s1 = { s2 with mic_mute := s1.mic_mute } := by
  cases s1
  cases s2
  simp only [forget_mute, State.mk.injEq] at h
  obtain ⟨h1, h2, h3, h4, _, h6, h7, h8, h9⟩ := h
  subst h1 h2 h3 h4 h6 h7 h8 h9
  rfl

theorem forget_mute_set (s : State) (m : Nat) :
    forget_mute { s with mic_mute := m } = forget_mute s := rfl

/-- A tick in a state with another value of `mic_mute`: the same state but for
`mic_mute`, the same operations and the same length; the pointer is the same unless one
of the two ticks hands out the silent frame. -/
theorem tick_mute_frame (s : State) (m : Nat) (p : Ptr) (n : Nat) :
    forget_mute (audio_in_endpoint_callback { s with mic_mute := m } p n).state
      = forget_mute (audio_in_endpoint_callback s p n).state ∧
    (audio_in_endpoint_callback { s with mic_mute := m } p n).effects
      = (audio_in_endpoint_callback s p n).effects ∧
    ((audio_in_endpoint_callback { s with mic_mute := m } p n).ppNextBuffer
        = (audio_in_endpoint_callback s p n).ppNextBuffer ∨
      (audio_in_endpoint_callback { s with mic_mute := m } p n).ppNextBuffer
        = Ptr.silent_frame ∨
      (audio_in_endpoint_callback s p n).ppNextBuffer = Ptr.silent_frame) := by
  unfold audio_in_endpoint_callback
  by_cases hs : s.audio_in_start_recording = true
  · simp [hs, forget_mute]
  · by_cases hr : s.audio_in_is_recording = true
    · by_cases hb : s.audio_in_pcm_buffer = Ptr.audio_in_pcm_buffer_ping
      · by_cases h1 : s.mic_mute = 1 <;> by_cases h2 : m = 1 <;>
          simp [hs, hr, hb, h1, h2, forget_mute, store_buffer, load_buffer,
            cyhal_pdm_pcm_read]
      · by_cases h1 : s.mic_mute = 1 <;> by_cases h2 : m = 1 <;>
          simp [hs, hr, hb, h1, h2, forget_mute, store_buffer, load_buffer,
            cyhal_pdm_pcm_read]
    · simp [hs, hr, forget_mute]

/-- The control decoder never reads `mic_mute`: from two states that differ in
`mic_mute` only it reaches two states that differ in `mic_mute` only. -/
theorem control_mute_frame (cfg : USBD_AUDIO_IF_CONF) (s : State) (m : Nat)
    (ev : AudioEvent) (u : Nat) (cs : AudioControl) (buf : List Nat) (nb i a : Nat) :
    forget_mute (audio_control_callback cfg { s with mic_mute := m } ev u cs buf nb i a).state
      = forget_mute (audio_control_callback cfg s ev u cs buf nb i a).state := by
  unfold audio_control_callback
  cases ev <;> cases cs <;> simp [audio_in_enable, audio_in_disable, forget_mute] <;>
    (split_ifs <;> simp)

/-- Ticks of two runs that agree on everything but `mic_mute` and the pointer. -/
def SameCapture (r1 r2 : TickRecord) : Prop :=
  forget_mute r1.result.state = forget_mute r2.result.state ∧
  r1.result.pNextPacketSize = r2.result.pNextPacketSize ∧
  r1.result.effects = r2.result.effects ∧
  (r1.result.ppNextBuffer = r2.result.ppNextBuffer ∨
    r1.result.ppNextBuffer = Ptr.silent_frame ∨ r2.result.ppNextBuffer = Ptr.silent_frame)

theorem same_capture_runs (cfg : USBD_AUDIO_IF_CONF) (inputs : List Input) :
    ∀ s1 s2 : State, forget_mute s1 = forget_mute s2 →
      List.Forall₂ SameCapture (tick_log cfg s1 inputs) (tick_log cfg s2 inputs) := by
  induction inputs with
  | nil => intro s1 s2 _; exact List.Forall₂.nil
  | cons inp rest ih =>
    intro s1 s2 h
    have hs1 := forget_mute_eq s1 s2 h
    cases inp with
    | control ev u cs buf nb i a =>
      simp only [tick_log]
      apply ih
      rw [hs1]
      exact control_mute_frame cfg s2 s1.mic_mute ev u cs buf nb i a
    | tick p n =>
      simp only [tick_log]
      have ht := tick_mute_frame s2 s1.mic_mute p n
      have hl := tick_length_mute_independent s2 s1.mic_mute p n
      rw [← hs1] at ht hl
      exact List.Forall₂.cons ⟨ht.1, hl, ht.2.1, ht.2.2⟩ (ih _ _ ht.1)
    | capture words =>
      simp only [tick_log]
      apply ih
      rw [hs1]
      rfl

/-- C13: two runs of the same inputs (ticks, control requests such as RecordStart and
RecordStop, FIFO arrivals) from states that differ in `mic_mute` only take the same
number of ticks, and after every tick the FIFO (contents, hence level), both recording
flags, the ping/pong selection, both PCM buffers and the reported length are the same
in the two runs, as are the operations performed and the rest of the state but for
`mic_mute`; the returned pointers are equal unless one of them is the silent frame. -/
theorem mute_does_not_influence_capture (cfg : USBD_AUDIO_IF_CONF) (inputs : List Input)
    (s : State) (m1 m2 : Nat) :
    List.Forall₂
      (fun r1 r2 : TickRecord =>
        r1.result.state.pdm_pcm = r2.result.state.pdm_pcm ∧
        Cy_PDM_PCM_GetNumInFifo r1.result.state.pdm_pcm
          = Cy_PDM_PCM_GetNumInFifo r2.result.state.pdm_pcm ∧
        r1.result.state.audio_in_start_recording = r2.result.state.audio_in_start_recording ∧
        r1.result.state.audio_in_is_recording = r2.result.state.audio_in_is_recording ∧
        r1.result.state.audio_in_pcm_buffer = r2.result.state.audio_in_pcm_buffer ∧
        r1.result.state.audio_in_pcm_buffer_ping = r2.result.state.audio_in_pcm_buffer_ping ∧
        r1.result.state.audio_in_pcm_buffer_pong = r2.result.state.audio_in_pcm_buffer_pong ∧
        r1.result.pNextPacketSize = r2.result.pNextPacketSize ∧
        r1.result.effects = r2.result.effects ∧
        forget_mute r1.result.state = forget_mute r2.result.state ∧
        (r1.result.ppNextBuffer = r2.result.ppNextBuffer ∨
          r1.result.ppNextBuffer = Ptr.silent_frame ∨
          r2.result.ppNextBuffer = Ptr.silent_frame))
      (tick_log cfg { s with mic_mute := m1 } inputs)
      (tick_log cfg { s with mic_mute := m2 } inputs) := by
  refine List.Forall₂.imp ?_
    (same_capture_runs cfg inputs { s with mic_mute := m1 } { s with mic_mute := m2 } rfl)
  intro r1 r2 h
  obtain ⟨hst, hsize, heff, hptr⟩ := h
  have hf : ∀ {β : Type} (f : State → β), (∀ t, f (forget_mute t) = f t) →
      f r1.result.state = f r2.result.state := by
    intro β f hfm
    rw [← hfm r1.result.state, ← hfm r2.result.state, hst]
  exact ⟨hf (fun t => t.pdm_pcm) (fun _ => rfl),
    hf (fun t => Cy_PDM_PCM_GetNumInFifo t.pdm_pcm) (fun _ => rfl),
    hf (fun t => t.audio_in_start_recording) (fun _ => rfl),
    hf (fun t => t.audio_in_is_recording) (fun _ => rfl),
    hf (fun t => t.audio_in_pcm_buffer) (fun _ => rfl),
    hf (fun t => t.audio_in_pcm_buffer_ping) (fun _ => rfl),
    hf (fun t => t.audio_in_pcm_buffer_pong) (fun _ => rfl),
    hsize, heff, hst, hptr⟩

/-! ## The control decoder -/

/-- C14, refuted as stated: a `USB_AUDIO_SET_CUR` mute request with a payload of two
bytes, addressed to the microphone feature unit, returns 0. -/
theorem set_mute_wrong_length_counterexample :
    (audio_control_callback (microphone_config ⟨2⟩) initial_state
      AudioEvent.USB_AUDIO_SET_CUR 2 AudioControl.USB_AUDIO_MUTE_CONTROL [1, 0] 2 0 0).retVal
      = 0 ∧
    (audio_control_callback (microphone_config ⟨2⟩) initial_state
      AudioEvent.USB_AUDIO_SET_CUR 2 AudioControl.USB_AUDIO_MUTE_CONTROL [1, 0] 2 0 0).state
      = initial_state := by
  decide

/-- C14, amended: every `USB_AUDIO_SET_CUR` request with selector
`USB_AUDIO_MUTE_CONTROL` whose payload length `NumBytes` is not 1 leaves `mic_mute`, and
the whole state and the buffer, unchanged, and returns 0: the request is ignored and not
reported as unhandled. -/
theorem set_mute_wrong_length (cfg : USBD_AUDIO_IF_CONF) (s : State) (Unit : Nat)
    (pBuffer : List Nat) (NumBytes : Nat) (InterfaceNo : Nat) (AltSetting : Nat)
    (h : NumBytes ≠ 1) :
    (audio_control_callback cfg s AudioEvent.USB_AUDIO_SET_CUR Unit
      AudioControl.USB_AUDIO_MUTE_CONTROL pBuffer NumBytes InterfaceNo AltSetting).state.mic_mute
      = s.mic_mute ∧
    (audio_control_callback cfg s AudioEvent.USB_AUDIO_SET_CUR Unit
      AudioControl.USB_AUDIO_MUTE_CONTROL pBuffer NumBytes InterfaceNo AltSetting).state = s ∧
    (audio_control_callback cfg s AudioEvent.USB_AUDIO_SET_CUR Unit
      AudioControl.USB_AUDIO_MUTE_CONTROL pBuffer NumBytes InterfaceNo AltSetting).pBuffer
      = pBuffer ∧
    (audio_control_callback cfg s AudioEvent.USB_AUDIO_SET_CUR Unit
      AudioControl.USB_AUDIO_MUTE_CONTROL pBuffer NumBytes InterfaceNo AltSetting).retVal
      = 0 := by
  have h1 : ¬ ONE_BYTE = NumBytes := fun e => h (by rw [← e]; rfl)
  simp [audio_control_callback, h1]

theorem set_mute_wrong_length_witness :
    (3 : Nat) ≠ 1 ∧
    (audio_control_callback (microphone_config ⟨2⟩) initial_state
      AudioEvent.USB_AUDIO_SET_CUR 2 AudioControl.USB_AUDIO_MUTE_CONTROL [1, 0, 0] 3 0 0).retVal
      = 0 :=
  ⟨by decide,
    (set_mute_wrong_length (microphone_config ⟨2⟩) initial_state 2 [1, 0, 0] 3 0 0
      (by decide)).2.2.2⟩

/-- C15, refuted as stated: after a one-byte `USB_AUDIO_SET_CUR` mute request with
payload 1 addressed to the microphone feature unit, `mic_mute` is 1 and a
`USB_AUDIO_GET_CUR` mute request answers 0 in `pBuffer[0]`. -/
theorem get_mute_counterexample :
    (audio_control_callback (microphone_config ⟨2⟩) initial_state
      AudioEvent.USB_AUDIO_SET_CUR 2 AudioControl.USB_AUDIO_MUTE_CONTROL [1] 1 0 0).state.mic_mute
      = 1 ∧
    (audio_control_callback (microphone_config ⟨2⟩)
      (audio_control_callback (microphone_config ⟨2⟩) initial_state
        AudioEvent.USB_AUDIO_SET_CUR 2 AudioControl.USB_AUDIO_MUTE_CONTROL [1] 1 0 0).state
      AudioEvent.USB_AUDIO_GET_CUR 2 AudioControl.USB_AUDIO_MUTE_CONTROL [0xFF] 1 0 0).pBuffer
      = [0] := by
  decide

/-- C15, amended: for every byte `b`, a one-byte `USB_AUDIO_SET_CUR` mute request with
payload `b` addressed to the microphone feature unit stores `b` in `mic_mute` and
returns 0; a following `USB_AUDIO_GET_CUR` request with selector
`USB_AUDIO_MUTE_CONTROL` writes 0 into `pBuffer[0]` whatever `mic_mute` is, leaves the
rest of the buffer and the state unchanged and returns 0. -/
theorem get_mute_reports_zero (cfg : USBD_AUDIO_IF_CONF) (s : State) (b : Nat)
    (payload : List Nat) (Unit : Nat) (pBuffer : List Nat) (NumBytes : Nat)
    (InterfaceNo AltSetting InterfaceNo2 AltSetting2 : Nat) :
    (audio_control_callback cfg s AudioEvent.USB_AUDIO_SET_CUR cfg.pUnits.FeatureUnitID
      AudioControl.USB_AUDIO_MUTE_CONTROL (b :: payload) 1 InterfaceNo AltSetting).state
      = { s with mic_mute := b } ∧
    (audio_control_callback cfg s AudioEvent.USB_AUDIO_SET_CUR cfg.pUnits.FeatureUnitID
      AudioControl.USB_AUDIO_MUTE_CONTROL (b :: payload) 1 InterfaceNo AltSetting).retVal
      = 0 ∧
    (audio_control_callback cfg
      (audio_control_callback cfg s AudioEvent.USB_AUDIO_SET_CUR cfg.pUnits.FeatureUnitID
        AudioControl.USB_AUDIO_MUTE_CONTROL (b :: payload) 1 InterfaceNo AltSetting).state
      AudioEvent.USB_AUDIO_GET_CUR Unit AudioControl.USB_AUDIO_MUTE_CONTROL pBuffer NumBytes
      InterfaceNo2 AltSetting2).pBuffer = pBuffer.set 0 0 ∧
    (audio_control_callback cfg
      (audio_control_callback cfg s AudioEvent.USB_AUDIO_SET_CUR cfg.pUnits.FeatureUnitID
        AudioControl.USB_AUDIO_MUTE_CONTROL (b :: payload) 1 InterfaceNo AltSetting).state
      AudioEvent.USB_AUDIO_GET_CUR Unit AudioControl.USB_AUDIO_MUTE_CONTROL pBuffer NumBytes
      InterfaceNo2 AltSetting2).state = { s with mic_mute := b } ∧
    (audio_control_callback cfg
      (audio_control_callback cfg s AudioEvent.USB_AUDIO_SET_CUR cfg.pUnits.FeatureUnitID
        AudioControl.USB_AUDIO_MUTE_CONTROL (b :: payload) 1 InterfaceNo AltSetting).state
      AudioEvent.USB_AUDIO_GET_CUR Unit AudioControl.USB_AUDIO_MUTE_CONTROL pBuffer NumBytes
      InterfaceNo2 AltSetting2).retVal = 0 := by
  simp [audio_control_callback, ONE_BYTE]

/-- C16: every `USB_AUDIO_SET_CUR` request with selector
`USB_AUDIO_SAMPLING_FREQ_CONTROL` whose `AltSetting` is 0 or at least `NumFormats`, for
every payload, payload length and unit id, leaves `current_mic_format_index`, `mic_mute`
and the recording flags (indeed the whole state and the buffer) unchanged and returns 0. -/
theorem set_sample_rate_out_of_range (cfg : USBD_AUDIO_IF_CONF) (s : State) (Unit : Nat)
    (pBuffer : List Nat) (NumBytes : Nat) (InterfaceNo : Nat) (AltSetting : Nat)
    (h : AltSetting = 0 ∨ AltSetting ≥ cfg.NumFormats) :
    (audio_control_callback cfg s AudioEvent.USB_AUDIO_SET_CUR Unit
      AudioControl.USB_AUDIO_SAMPLING_FREQ_CONTROL pBuffer NumBytes InterfaceNo
      AltSetting).state.current_mic_format_index = s.current_mic_format_index ∧
    (audio_control_callback cfg s AudioEvent.USB_AUDIO_SET_CUR Unit
      AudioControl.USB_AUDIO_SAMPLING_FREQ_CONTROL pBuffer NumBytes InterfaceNo
      AltSetting).state.mic_mute = s.mic_mute ∧
    (audio_control_callback cfg s AudioEvent.USB_AUDIO_SET_CUR Unit
      AudioControl.USB_AUDIO_SAMPLING_FREQ_CONTROL pBuffer NumBytes InterfaceNo
      AltSetting).state.audio_in_start_recording = s.audio_in_start_recording ∧
    (audio_control_callback cfg s AudioEvent.USB_AUDIO_SET_CUR Unit
      AudioControl.USB_AUDIO_SAMPLING_FREQ_CONTROL pBuffer NumBytes InterfaceNo
      AltSetting).state.audio_in_is_recording = s.audio_in_is_recording ∧
    (audio_control_callback cfg s AudioEvent.USB_AUDIO_SET_CUR Unit
      AudioControl.USB_AUDIO_SAMPLING_FREQ_CONTROL pBuffer NumBytes InterfaceNo
      AltSetting).state = s ∧
    (audio_control_callback cfg s AudioEvent.USB_AUDIO_SET_CUR Unit
      AudioControl.USB_AUDIO_SAMPLING_FREQ_CONTROL pBuffer NumBytes InterfaceNo
      AltSetting).pBuffer = pBuffer ∧
    (audio_control_callback cfg s AudioEvent.USB_AUDIO_SET_CUR Unit
      AudioControl.USB_AUDIO_SAMPLING_FREQ_CONTROL pBuffer NumBytes InterfaceNo
      AltSetting).retVal = 0 := by
  have hr : ¬ (AltSetting > 0 ∧ AltSetting < cfg.NumFormats) := by
    rintro ⟨h1, h2⟩
    rcases h with h | h <;> omega
  unfold audio_control_callback
  simp only [hr, if_false]
  split_ifs <;> simp

/-- A microphone configuration with three formats. -/
def three_formats_config : USBD_AUDIO_IF_CONF where
  NumFormats := 3
  paFormats :=
    [{ Flags := 0, NrChannels := 2, SubFrameSize := 2, BitResolution := 16, SamFreq := 16000 },
     { Flags := 0, NrChannels := 2, SubFrameSize := 2, BitResolution := 16, SamFreq := 44100 },
     { Flags := 0, NrChannels := 2, SubFrameSize := 2, BitResolution := 16,
       SamFreq := 0xABCDEF }]
  pUnits := { FeatureUnitID := 2 }

theorem set_sample_rate_out_of_range_witness :
    ((3 : Nat) = 0 ∨ 3 ≥ three_formats_config.NumFormats) ∧
    (audio_control_callback three_formats_config
      { initial_state with current_mic_format_index := 1 } AudioEvent.USB_AUDIO_SET_CUR 2
      AudioControl.USB_AUDIO_SAMPLING_FREQ_CONTROL [0x44, 0xAC, 0] 3 0
      3).state.current_mic_format_index = 1 :=
  ⟨by decide,
    (set_sample_rate_out_of_range three_formats_config
      { initial_state with current_mic_format_index := 1 } 2 [0x44, 0xAC, 0] 3 0 3
      (by decide)).1⟩

theorem little_endian_three_bytes (f : Nat) (h : f < 2 ^ 24) :
    f % 256 + 256 * (f / 2 ^ 8 % 256) + 65536 * (f / 2 ^ 16 % 256) = f := by
  norm_num at h ⊢
  omega

/-- C17: a `USB_AUDIO_GET_CUR` request with selector `USB_AUDIO_SAMPLING_FREQ_CONTROL`
addressed to the microphone feature unit overwrites the first three bytes of the buffer
with the sample frequency `f` of the active format, low byte first, and nothing else, so
that `pBuffer[0] + 256 * pBuffer[1] + 65536 * pBuffer[2] = f` whenever `f < 2^24`; it
returns 0 and leaves the state unchanged. For the compiled microphone configuration with
format index 0 the three bytes are 0x44, 0xAC, 0x00. -/
theorem get_sample_rate_bytes (cfg : USBD_AUDIO_IF_CONF) (s : State) (b0 b1 b2 : Nat)
    (tail : List Nat) (NumBytes : Nat) (InterfaceNo : Nat) (AltSetting : Nat)
    (fmt : USBD_AUDIO_FORMAT)
    (hfmt : cfg.paFormats[s.current_mic_format_index]? = some fmt)
    (hf : fmt.SamFreq < 2 ^ 24) :
    (audio_control_callback cfg s AudioEvent.USB_AUDIO_GET_CUR cfg.pUnits.FeatureUnitID
      AudioControl.USB_AUDIO_SAMPLING_FREQ_CONTROL (b0 :: b1 :: b2 :: tail) NumBytes
      InterfaceNo AltSetting).pBuffer
      = fmt.SamFreq % 256 :: (fmt.SamFreq / 2 ^ 8 % 256) :: (fmt.SamFreq / 2 ^ 16 % 256)
          :: tail ∧
    fmt.SamFreq % 256 + 256 * (fmt.SamFreq / 2 ^ 8 % 256)
      + 65536 * (fmt.SamFreq / 2 ^ 16 % 256) = fmt.SamFreq ∧
    (audio_control_callback cfg s AudioEvent.USB_AUDIO_GET_CUR cfg.pUnits.FeatureUnitID
      AudioControl.USB_AUDIO_SAMPLING_FREQ_CONTROL (b0 :: b1 :: b2 :: tail) NumBytes
      InterfaceNo AltSetting).retVal = 0 ∧
    (audio_control_callback cfg s AudioEvent.USB_AUDIO_GET_CUR cfg.pUnits.FeatureUnitID
      AudioControl.USB_AUDIO_SAMPLING_FREQ_CONTROL (b0 :: b1 :: b2 :: tail) NumBytes
      InterfaceNo AltSetting).state = s ∧
    (∀ (u : USBD_AUDIO_UNITS) (t : State), t.current_mic_format_index = 0 →
      (audio_control_callback (microphone_config u) t AudioEvent.USB_AUDIO_GET_CUR
        u.FeatureUnitID AudioControl.USB_AUDIO_SAMPLING_FREQ_CONTROL (b0 :: b1 :: b2 :: tail)
        NumBytes InterfaceNo AltSetting).pBuffer = 0x44 :: 0xAC :: 0x00 :: tail) := by
  refine ⟨?_, little_endian_three_bytes fmt.SamFreq hf, ?_, ?_, ?_⟩
  · simp [audio_control_callback, hfmt]
  · simp [audio_control_callback]
  · simp [audio_control_callback]
  · intro u t ht
    simp [audio_control_callback, microphone_config, microphone_formats, ht,
      AUDIO_IN_SAMPLE_FREQ, AUDIO_SAMPLING_RATE_44KHZ]

theorem get_sample_rate_bytes_witness :
    three_formats_config.paFormats[(2 : Nat)]?
      = some { Flags := 0, NrChannels := 2, SubFrameSize := 2, BitResolution := 16,
               SamFreq := 0xABCDEF } ∧
    (audio_control_callback three_formats_config
      { initial_state with current_mic_format_index := 2 } AudioEvent.USB_AUDIO_GET_CUR 2
      AudioControl.USB_AUDIO_SAMPLING_FREQ_CONTROL [1, 2, 3, 4] 3 0 1).pBuffer
      = [0xEF, 0xCD, 0xAB, 4] :=
  ⟨by decide,
    (get_sample_rate_bytes three_formats_config
      { initial_state with current_mic_format_index := 2 } 1 2 3 [4] 3 0 1
      { Flags := 0, NrChannels := 2, SubFrameSize := 2, BitResolution := 16,
        SamFreq := 0xABCDEF } (by decide) (by decide)).1⟩

/-- C18: for every event that is not one of the twelve the decoder has a case for,
and every unit, selector, payload and length, `audio_control_callback` returns a
non-zero value (1), leaves the state (recording flags, `mic_mute`, format index and all
the rest) unchanged and writes nothing to `pBuffer`. -/
theorem unknown_event_not_handled (cfg : USBD_AUDIO_IF_CONF) (s : State) (Event : AudioEvent)
    (Unit : Nat) (ControlSelector : AudioControl) (pBuffer : List Nat) (NumBytes : Nat)
    (InterfaceNo : Nat) (AltSetting : Nat) (h : Event ∉ recognised_events) :
    (audio_control_callback cfg s Event Unit ControlSelector pBuffer NumBytes InterfaceNo
      AltSetting).retVal ≠ 0 ∧
    (audio_control_callback cfg s Event Unit ControlSelector pBuffer NumBytes InterfaceNo
      AltSetting).retVal = 1 ∧
    (audio_control_callback cfg s Event Unit ControlSelector pBuffer NumBytes InterfaceNo
      AltSetting).state = s ∧
    (audio_control_callback cfg s Event Unit ControlSelector pBuffer NumBytes InterfaceNo
      AltSetting).pBuffer = pBuffer := by
  cases Event
  case other code => simp [audio_control_callback]
  all_goals exact absurd (by simp [recognised_events]) h

theorem unknown_event_not_handled_witness :
    AudioEvent.other 200 ∉ recognised_events ∧
    (audio_control_callback (microphone_config ⟨2⟩) initial_state (AudioEvent.other 200) 2
      AudioControl.USB_AUDIO_MUTE_CONTROL [1] 1 0 0).retVal ≠ 0 :=
  ⟨by decide,
    (unknown_event_not_handled (microphone_config ⟨2⟩) initial_state (AudioEvent.other 200) 2
      AudioControl.USB_AUDIO_MUTE_CONTROL [1] 1 0 0 (by decide)).1⟩

/-- C20: for every pair of locals `(usb_suspended, usb_connected)` and every value `b`
of `usb_suspend_flag`, a second iteration of the loop of `audio_app_task` that reads `b`
again ends in the state the first iteration ended in, and its only call is the delay:
no `USBD_AUDIO_Start_Play`, no `USBD_AUDIO_Stop_Play` and no log line. -/
theorem supervisor_loop_idempotent (b : Bool) (st : AppTaskState) :
    (audio_app_task_loop b (audio_app_task_loop b st).state).state
      = (audio_app_task_loop b st).state ∧
    (audio_app_task_loop b (audio_app_task_loop b st).state).effects
      = [AppEffect.vTaskDelay DELAY_TICKS] ∧
    supervisor_actions (audio_app_task_loop b (audio_app_task_loop b st).state).effects
      = [] := by
  obtain ⟨sus, con⟩ := st
  cases b <;> cases sus <;> cases con <;> decide

/-! ## Writers of the shared flags -/

/-- C21, refuted as stated: a tick taken with a start pending and the recording flag
clear sets `audio_in_is_recording`. -/
theorem tick_writes_is_recording_counterexample :
    (audio_in_enable initial_state).audio_in_is_recording = false ∧
    (audio_in_endpoint_callback (audio_in_enable initial_state) Ptr.null
      0).state.audio_in_is_recording = true := by
  decide

/-- The control decoder leaves the static pointer alone and never sets the recording
flag. -/
theorem control_keeps_selection (cfg : USBD_AUDIO_IF_CONF) (s : State) (ev : AudioEvent)
    (u : Nat) (cs : AudioControl) (buf : List Nat) (nb i a : Nat) :
    (audio_control_callback cfg s ev u cs buf nb i a).state.audio_in_pcm_buffer
      = s.audio_in_pcm_buffer ∧
    ((audio_control_callback cfg s ev u cs buf nb i a).state.audio_in_is_recording = true →
      s.audio_in_is_recording = true) := by
  unfold audio_control_callback
  cases ev <;> cases cs <;> simp [audio_in_enable, audio_in_disable] <;>
    (split_ifs <;> simp)

/-- C21, amended: for every state, one call of `audio_in_endpoint_callback` leaves
`mic_mute` and the format index unchanged; taken with a start pending it clears
`audio_in_start_recording` and sets `audio_in_is_recording`, and taken with no start
pending it leaves both recording flags unchanged. The control callback never sets
`audio_in_is_recording`: that flag is set by the endpoint callback and cleared by the
control callback. -/
theorem tick_flag_writes (s : State) (ppNextBuffer : Ptr) (pNextPacketSize : Nat) :
    (audio_in_endpoint_callback s ppNextBuffer pNextPacketSize).state.mic_mute = s.mic_mute ∧
    (audio_in_endpoint_callback s ppNextBuffer pNextPacketSize).state.current_mic_format_index
      = s.current_mic_format_index ∧
    (s.audio_in_start_recording = true →
      (audio_in_endpoint_callback s ppNextBuffer pNextPacketSize).state.audio_in_start_recording
        = false ∧
      (audio_in_endpoint_callback s ppNextBuffer pNextPacketSize).state.audio_in_is_recording
        = true) ∧
    (s.audio_in_start_recording = false →
      (audio_in_endpoint_callback s ppNextBuffer pNextPacketSize).state.audio_in_start_recording
        = false ∧
      (audio_in_endpoint_callback s ppNextBuffer pNextPacketSize).state.audio_in_is_recording
        = s.audio_in_is_recording) ∧
    (∀ (cfg : USBD_AUDIO_IF_CONF) (Event : AudioEvent) (Unit : Nat)
        (ControlSelector : AudioControl) (pBuffer : List Nat)
        (NumBytes InterfaceNo AltSetting : Nat),
      (audio_control_callback cfg s Event Unit ControlSelector pBuffer NumBytes InterfaceNo
        AltSetting).state.audio_in_is_recording = true → s.audio_in_is_recording = true) := by
  refine ⟨?_, ?_, ?_, ?_, ?_⟩
  · unfold audio_in_endpoint_callback
    by_cases hs : s.audio_in_start_recording = true
    · simp [hs]
    · by_cases hr : s.audio_in_is_recording = true <;> simp [hs, hr]
  · unfold audio_in_endpoint_callback
    by_cases hs : s.audio_in_start_recording = true
    · simp [hs]
    · by_cases hr : s.audio_in_is_recording = true <;> simp [hs, hr]
  · intro hs
    simp [audio_in_endpoint_callback, hs]
  · intro hs
    unfold audio_in_endpoint_callback
    by_cases hr : s.audio_in_is_recording = true
    · simp [hs, hr]
    · simp [hs, hr]
  · intro cfg ev u cs buf nb i a
    exact (control_keeps_selection cfg s ev u cs buf nb i a).2

theorem tick_flag_writes_witness :
    start_pending_state.audio_in_start_recording = true ∧
    (audio_in_endpoint_callback start_pending_state Ptr.null 0).state.audio_in_start_recording
      = false ∧
    (audio_in_endpoint_callback start_pending_state Ptr.null 0).state.audio_in_is_recording
      = true :=
  ⟨by decide, (tick_flag_writes start_pending_state Ptr.null 0).2.2.1 (by decide)⟩

/-! ## Mute is the value 1 -/

/-- C24: a one-byte `USB_AUDIO_SET_CUR` mute request addressed to the microphone feature
unit stores the payload byte `b` as it is and touches no recording flag; the recording
tick that follows hands out `silent_frame` if and only if `b` is exactly 1, and for
every other value (2 or 0xFF for instance) it hands out the PCM buffer it has just read
into, which is the ping or the pong buffer. -/
theorem mute_only_for_one (cfg : USBD_AUDIO_IF_CONF) (s : State) (b : Nat)
    (payload : List Nat) (InterfaceNo AltSetting : Nat) (ppNextBuffer : Ptr)
    (pNextPacketSize : Nat) (h : Recording s) :
    (audio_control_callback cfg s AudioEvent.USB_AUDIO_SET_CUR cfg.pUnits.FeatureUnitID
      AudioControl.USB_AUDIO_MUTE_CONTROL (b :: payload) 1 InterfaceNo AltSetting).state
      = { s with mic_mute := b } ∧
    ((audio_in_endpoint_callback
        (audio_control_callback cfg s AudioEvent.USB_AUDIO_SET_CUR cfg.pUnits.FeatureUnitID
          AudioControl.USB_AUDIO_MUTE_CONTROL (b :: payload) 1 InterfaceNo AltSetting).state
        ppNextBuffer pNextPacketSize).ppNextBuffer = Ptr.silent_frame ↔ b = 1) ∧
    (b ≠ 1 →
      (audio_in_endpoint_callback
        (audio_control_callback cfg s AudioEvent.USB_AUDIO_SET_CUR cfg.pUnits.FeatureUnitID
          AudioControl.USB_AUDIO_MUTE_CONTROL (b :: payload) 1 InterfaceNo AltSetting).state
        ppNextBuffer pNextPacketSize).ppNextBuffer
        = (audio_in_endpoint_callback
        (audio_control_callback cfg s AudioEvent.USB_AUDIO_SET_CUR cfg.pUnits.FeatureUnitID
          AudioControl.USB_AUDIO_MUTE_CONTROL (b :: payload) 1 InterfaceNo AltSetting).state
        ppNextBuffer pNextPacketSize).state.audio_in_pcm_buffer ∧
      written_buffers (audio_in_endpoint_callback
        (audio_control_callback cfg s AudioEvent.USB_AUDIO_SET_CUR cfg.pUnits.FeatureUnitID
          AudioControl.USB_AUDIO_MUTE_CONTROL (b :: payload) 1 InterfaceNo AltSetting).state
        ppNextBuffer pNextPacketSize).effects
        = [(audio_in_endpoint_callback
        (audio_control_callback cfg s AudioEvent.USB_AUDIO_SET_CUR cfg.pUnits.FeatureUnitID
          AudioControl.USB_AUDIO_MUTE_CONTROL (b :: payload) 1 InterfaceNo AltSetting).state
        ppNextBuffer pNextPacketSize).ppNextBuffer] ∧
      ((audio_in_endpoint_callback
        (audio_control_callback cfg s AudioEvent.USB_AUDIO_SET_CUR cfg.pUnits.FeatureUnitID
          AudioControl.USB_AUDIO_MUTE_CONTROL (b :: payload) 1 InterfaceNo AltSetting).state
        ppNextBuffer pNextPacketSize).ppNextBuffer = Ptr.audio_in_pcm_buffer_ping ∨
       (audio_in_endpoint_callback
        (audio_control_callback cfg s AudioEvent.USB_AUDIO_SET_CUR cfg.pUnits.FeatureUnitID
          AudioControl.USB_AUDIO_MUTE_CONTROL (b :: payload) 1 InterfaceNo AltSetting).state
        ppNextBuffer pNextPacketSize).ppNextBuffer = Ptr.audio_in_pcm_buffer_pong)) := by
  obtain ⟨hs, hr⟩ := h
  have hset : (audio_control_callback cfg s AudioEvent.USB_AUDIO_SET_CUR
      cfg.pUnits.FeatureUnitID AudioControl.USB_AUDIO_MUTE_CONTROL (b :: payload) 1
      InterfaceNo AltSetting).state = { s with mic_mute := b } := by
    simp [audio_control_callback, ONE_BYTE]
  rw [hset]
  refine ⟨rfl, ?_, ?_⟩
  · by_cases hb : b = 1 <;>
      by_cases hp : s.audio_in_pcm_buffer = Ptr.audio_in_pcm_buffer_ping <;>
      simp [audio_in_endpoint_callback, hs, hr, hb, hp]
  · intro hb
    by_cases hp : s.audio_in_pcm_buffer = Ptr.audio_in_pcm_buffer_ping <;>
      simp [audio_in_endpoint_callback, hs, hr, hb, hp, written_buffers]

theorem mute_only_for_one_witness :
    Recording (recording_state [1, 2, 3]) ∧
    (audio_in_endpoint_callback
      (audio_control_callback (microphone_config ⟨2⟩) (recording_state [1, 2, 3])
        AudioEvent.USB_AUDIO_SET_CUR 2 AudioControl.USB_AUDIO_MUTE_CONTROL [0xFF] 1 0 1).state
      Ptr.null 0).ppNextBuffer = Ptr.audio_in_pcm_buffer_pong ∧
    ((audio_in_endpoint_callback
      (audio_control_callback (microphone_config ⟨2⟩) (recording_state [1, 2, 3])
        AudioEvent.USB_AUDIO_SET_CUR 2 AudioControl.USB_AUDIO_MUTE_CONTROL [2] 1 0 1).state
      Ptr.null 0).ppNextBuffer = Ptr.silent_frame ↔ (2 : Nat) = 1) :=
  ⟨by decide, by decide,
    (mute_only_for_one (microphone_config ⟨2⟩) (recording_state [1, 2, 3]) 2 [] 0 1 Ptr.null
      0 (by decide)).2.1⟩

/-! ## The format index -/

theorem tick_keeps_format_index (s : State) (p : Ptr) (n : Nat) :
    (audio_in_endpoint_callback s p n).state.current_mic_format_index
      = s.current_mic_format_index := by
  unfold audio_in_endpoint_callback
  by_cases hs : s.audio_in_start_recording = true
  · simp [hs]
  · by_cases hr : s.audio_in_is_recording = true <;> simp [hs, hr]

theorem control_format_index_bound (cfg : USBD_AUDIO_IF_CONF) (s : State) (ev : AudioEvent)
    (u : Nat) (cs : AudioControl) (buf : List Nat) (nb i a : Nat)
    (h : s.current_mic_format_index < cfg.NumFormats) :
    (audio_control_callback cfg s ev u cs buf nb i a).state.current_mic_format_index
      < cfg.NumFormats := by
  unfold audio_control_callback
  cases ev <;> cases cs <;> simp [audio_in_enable, audio_in_disable] <;>
    first
      | exact h
      | (split_ifs <;> first
          | exact h
          | (have hm := Nat.mod_le (a - 1) U8_MOD
             simp only [] at *
             omega))

theorem run_format_index_bound (cfg : USBD_AUDIO_IF_CONF) (inputs : List Input) :
    ∀ s : State, s.current_mic_format_index < cfg.NumFormats →
      (run cfg s inputs).current_mic_format_index < cfg.NumFormats := by
  induction inputs with
  | nil => intro s h; exact h
  | cons inp rest ih =>
    intro s h
    cases inp with
    | control ev u cs buf nb i a =>
      exact ih _ (control_format_index_bound cfg s ev u cs buf nb i a h)
    | tick p n =>
      apply ih
      rw [tick_keeps_format_index]
      exact h
    | capture words => exact ih _ h

/-- C23: for every microphone configuration with `NumFormats >= 1` and every run
(control requests, and ticks and FIFO arrivals as well) from a state with
`current_mic_format_index = 0`, the index stays strictly below `NumFormats`, so that
`paFormats[current_mic_format_index]` exists when `paFormats` has `NumFormats` entries;
and a `USB_AUDIO_SET_CUR` sampling-frequency request with `0 < AltSetting < NumFormats`
(`AltSetting` being a `U8`), a payload length of three and the unit id of the microphone
sets the index to `AltSetting - 1` and changes nothing else, whatever the payload. -/
theorem format_index_in_bounds (cfg : USBD_AUDIO_IF_CONF) (s : State) (inputs : List Input)
    (hN : cfg.NumFormats ≥ 1) (h0 : s.current_mic_format_index = 0) :
    (run cfg s inputs).current_mic_format_index < cfg.NumFormats ∧
    (cfg.paFormats.length = cfg.NumFormats →
      ∃ fmt, cfg.paFormats[(run cfg s inputs).current_mic_format_index]? = some fmt) ∧
    (∀ (t : State) (pBuffer : List Nat) (InterfaceNo AltSetting : Nat),
      0 < AltSetting → AltSetting < cfg.NumFormats → AltSetting < U8_MOD →
      (audio_control_callback cfg t AudioEvent.USB_AUDIO_SET_CUR cfg.pUnits.FeatureUnitID
        AudioControl.USB_AUDIO_SAMPLING_FREQ_CONTROL pBuffer 3 InterfaceNo AltSetting).state
        = { t with current_mic_format_index := AltSetting - 1 }) := by
  have hb : (run cfg s inputs).current_mic_format_index < cfg.NumFormats :=
    run_format_index_bound cfg inputs s (by rw [h0]; exact hN)
  refine ⟨hb, ?_, ?_⟩
  · intro hlen
    rw [← hlen] at hb
    exact ⟨cfg.paFormats[(run cfg s inputs).current_mic_format_index],
      List.getElem?_eq_getElem hb⟩
  · intro t pBuffer i a ha1 ha2 ha3
    have hmod : (a - 1) % U8_MOD = a - 1 := Nat.mod_eq_of_lt (by omega)
    simp [audio_control_callback, THREE_BYTES, ha1, ha2, hmod]

/-- Three control requests on `three_formats_config`: select the third format, then two
requests that are ignored (alternate setting 0, and alternate setting 3). -/
def format_inputs : List Input :=
  [Input.control AudioEvent.USB_AUDIO_SET_CUR 2 AudioControl.USB_AUDIO_SAMPLING_FREQ_CONTROL
     [0, 0, 0] 3 0 2,
   Input.control AudioEvent.USB_AUDIO_SET_CUR 2 AudioControl.USB_AUDIO_SAMPLING_FREQ_CONTROL
     [0x44, 0xAC, 0] 3 0 0,
   Input.control AudioEvent.USB_AUDIO_SET_CUR 2 AudioControl.USB_AUDIO_SAMPLING_FREQ_CONTROL
     [0x44, 0xAC, 0] 3 0 3]

theorem format_index_in_bounds_witness :
    three_formats_config.NumFormats ≥ 1 ∧
    initial_state.current_mic_format_index = 0 ∧
    (run three_formats_config initial_state format_inputs).current_mic_format_index = 1 ∧
    (run three_formats_config initial_state format_inputs).current_mic_format_index
      < three_formats_config.NumFormats :=
  ⟨by decide, by decide, by decide,
    (format_index_in_bounds three_formats_config initial_state format_inputs (by decide)
      (by decide)).1⟩

/-! ## Alternation of the write target -/

/-- What a tick writes: ping on a start tick, the newly selected buffer (ping or pong) on
a recording tick, nothing on an idle tick; afterwards `LastWritten` holds. -/
theorem tick_written (s : State) (p : Ptr) (n : Nat) :
    (s.audio_in_start_recording = true →
      written_buffers (audio_in_endpoint_callback s p n).effects
        = [Ptr.audio_in_pcm_buffer_ping]) ∧
    (Recording s →
      written_buffers (audio_in_endpoint_callback s p n).effects
        = [(audio_in_endpoint_callback s p n).state.audio_in_pcm_buffer] ∧
      ((audio_in_endpoint_callback s p n).state.audio_in_pcm_buffer
          = Ptr.audio_in_pcm_buffer_ping ∨
        (audio_in_endpoint_callback s p n).state.audio_in_pcm_buffer
          = Ptr.audio_in_pcm_buffer_pong) ∧
      (audio_in_endpoint_callback s p n).state.audio_in_pcm_buffer
        = (if s.audio_in_pcm_buffer = Ptr.audio_in_pcm_buffer_ping then
            Ptr.audio_in_pcm_buffer_pong
          else Ptr.audio_in_pcm_buffer_ping)) ∧
    LastWritten (written_buffers (audio_in_endpoint_callback s p n).effects)
      (audio_in_endpoint_callback s p n).state := by
  unfold LastWritten
  by_cases hs : s.audio_in_start_recording = true
  · refine ⟨?_, ?_, ?_⟩
    · intro _
      simp [audio_in_endpoint_callback, hs, written_buffers]
    · intro hrec
      rw [hrec.1] at hs
      exact absurd hs (by decide)
    · intro _
      simp [audio_in_endpoint_callback, hs, written_buffers]
  · by_cases hr : s.audio_in_is_recording = true
    · have key : written_buffers (audio_in_endpoint_callback s p n).effects
            = [(audio_in_endpoint_callback s p n).state.audio_in_pcm_buffer] ∧
          ((audio_in_endpoint_callback s p n).state.audio_in_pcm_buffer
              = Ptr.audio_in_pcm_buffer_ping ∨
            (audio_in_endpoint_callback s p n).state.audio_in_pcm_buffer
              = Ptr.audio_in_pcm_buffer_pong) ∧
          (audio_in_endpoint_callback s p n).state.audio_in_pcm_buffer
            = (if s.audio_in_pcm_buffer = Ptr.audio_in_pcm_buffer_ping then
                Ptr.audio_in_pcm_buffer_pong
              else Ptr.audio_in_pcm_buffer_ping) := by
        by_cases hb : s.audio_in_pcm_buffer = Ptr.audio_in_pcm_buffer_ping <;>
          simp [audio_in_endpoint_callback, hs, hr, hb, written_buffers]
      exact ⟨fun h => absurd h hs, fun _ => key, fun _ => ⟨key.1, key.2.1⟩⟩
    · refine ⟨fun h => absurd h hs, fun hrec => absurd hrec.2 hr, ?_⟩
      intro h
      simp [audio_in_endpoint_callback, hs, hr] at h

theorem recording_selected_after_tick (s : State) (p : Ptr) (n : Nat) :
    RecordingSelected (audio_in_endpoint_callback s p n).state :=
  fun h => ((tick_written s p n).2.2 h).2

theorem recording_selected_after_control (cfg : USBD_AUDIO_IF_CONF) (s : State)
    (ev : AudioEvent) (u : Nat) (cs : AudioControl) (buf : List Nat) (nb i a : Nat)
    (h : RecordingSelected s) :
    RecordingSelected (audio_control_callback cfg s ev u cs buf nb i a).state := by
  intro hr
  have hk := control_keeps_selection cfg s ev u cs buf nb i a
  rw [hk.1]
  exact h (hk.2 hr)

theorem last_written_after_control (cfg : USBD_AUDIO_IF_CONF) (w : List Ptr) (s : State)
    (ev : AudioEvent) (u : Nat) (cs : AudioControl) (buf : List Nat) (nb i a : Nat)
    (h : LastWritten w s) :
    LastWritten w (audio_control_callback cfg s ev u cs buf nb i a).state := by
  intro hr
  have hk := control_keeps_selection cfg s ev u cs buf nb i a
  rw [hk.1]
  exact h (hk.2 hr)

theorem run_recording_selected (cfg : USBD_AUDIO_IF_CONF) (inputs : List Input) :
    ∀ s : State, RecordingSelected s → RecordingSelected (run cfg s inputs) := by
  induction inputs with
  | nil => intro s h; exact h
  | cons inp rest ih =>
    intro s h
    cases inp with
    | control ev u cs buf nb i a =>
      exact ih _ (recording_selected_after_control cfg s ev u cs buf nb i a h)
    | tick p n => exact ih _ (recording_selected_after_tick s p n)
    | capture words => exact ih _ h

/-- Every tick of a run is a call of the endpoint callback in the state recorded. -/
theorem tick_log_mem (cfg : USBD_AUDIO_IF_CONF) (inputs : List Input) :
    ∀ (s : State) (r : TickRecord), r ∈ tick_log cfg s inputs →
      ∃ p n, r.result = audio_in_endpoint_callback r.before p n := by
  induction inputs with
  | nil => intro s r h; simp [tick_log] at h
  | cons inp rest ih =>
    intro s r h
    cases inp with
    | control ev u cs buf nb i a => exact ih _ r h
    | capture words => exact ih _ r h
    | tick p n =>
      simp only [tick_log, List.mem_cons] at h
      rcases h with h | h
      · exact ⟨p, n, by rw [h]⟩
      · exact ih _ r h

/-- A recording tick writes the buffer the tick before it did not write. -/
theorem recording_tick_alternates (w : List Ptr) (s : State) (q : Ptr) (n : Nat)
    (h : LastWritten w s) (hrec : Recording s) :
    (w = [Ptr.audio_in_pcm_buffer_ping] ∧
      written_buffers (audio_in_endpoint_callback s q n).effects
        = [Ptr.audio_in_pcm_buffer_pong]) ∨
    (w = [Ptr.audio_in_pcm_buffer_pong] ∧
      written_buffers (audio_in_endpoint_callback s q n).effects
        = [Ptr.audio_in_pcm_buffer_ping]) := by
  obtain ⟨hw, hsel⟩ := h hrec.2
  obtain ⟨hwr, _, hflip⟩ := (tick_written s q n).2.1 hrec
  rw [hwr, hflip, hw]
  rcases hsel with hp | hp
  · left
    simp [hp]
  · right
    simp [hp]

theorem first_recording_tick_alternates (cfg : USBD_AUDIO_IF_CONF) (w : List Ptr)
    (inputs : List Input) :
    ∀ (s : State) (r : TickRecord), LastWritten w s →
      (tick_log cfg s inputs)[0]? = some r → Recording r.before →
      (w = [Ptr.audio_in_pcm_buffer_ping] ∧
        written_buffers r.result.effects = [Ptr.audio_in_pcm_buffer_pong]) ∨
      (w = [Ptr.audio_in_pcm_buffer_pong] ∧
        written_buffers r.result.effects = [Ptr.audio_in_pcm_buffer_ping]) := by
  induction inputs with
  | nil => intro s r _ h0; simp [tick_log] at h0
  | cons inp rest ih =>
    intro s r hinv h0 hrec
    cases inp with
    | control ev u cs buf nb i a =>
      exact ih _ r (last_written_after_control cfg w s ev u cs buf nb i a hinv) h0 hrec
    | tick q n =>
      simp only [tick_log, List.getElem?_cons_zero, Option.some.injEq] at h0
      subst h0
      exact recording_tick_alternates w s q n hinv hrec
    | capture words =>
      exact ih { s with pdm_pcm := pdm_pcm_capture s.pdm_pcm words } r hinv h0 hrec

theorem consecutive_recording_ticks_from (cfg : USBD_AUDIO_IF_CONF) (inputs : List Input) :
    ∀ (s : State) (n : Nat) (r1 r2 : TickRecord),
      (tick_log cfg s inputs)[n]? = some r1 →
      (tick_log cfg s inputs)[n + 1]? = some r2 →
      Recording r2.before →
      (written_buffers r1.result.effects = [Ptr.audio_in_pcm_buffer_ping] ∧
        written_buffers r2.result.effects = [Ptr.audio_in_pcm_buffer_pong]) ∨
      (written_buffers r1.result.effects = [Ptr.audio_in_pcm_buffer_pong] ∧
        written_buffers r2.result.effects = [Ptr.audio_in_pcm_buffer_ping]) := by
  induction inputs with
  | nil => intro s n r1 r2 h1; simp [tick_log] at h1
  | cons inp rest ih =>
    intro s n r1 r2 h1 h2 hrec
    cases inp with
    | control ev u cs buf nb i a => exact ih _ n r1 r2 h1 h2 hrec
    | capture words => exact ih _ n r1 r2 h1 h2 hrec
    | tick q m =>
      simp only [tick_log] at h1 h2
      cases n with
      | zero =>
        simp only [List.getElem?_cons_zero, Option.some.injEq] at h1
        simp only [Nat.zero_add, List.getElem?_cons_succ] at h2
        subst h1
        exact first_recording_tick_alternates cfg _ rest _ r2 (tick_written s q m).2.2 h2 hrec
      | succ k =>
        simp only [List.getElem?_cons_succ] at h1 h2
        exact ih _ k r1 r2 h1 h2 hrec

/-- C22: in every run from the initial state, (1) in the state reached,
`audio_in_is_recording` being set implies that `audio_in_pcm_buffer` designates the ping
or the pong buffer; (2) every recording tick reads into the buffer it has just selected,
which is the ping or the pong buffer, never `NULL`; (3) every start tick writes the ping
buffer; (4) of two consecutive ticks the later of which is a recording tick, one writes
ping and the other pong, so that after a start tick's ping the write target goes pong,
ping, pong, ... as long as no start intervenes. -/
theorem recording_selection_invariant (cfg : USBD_AUDIO_IF_CONF) (inputs : List Input) :
    ((run cfg initial_state inputs).audio_in_is_recording = true →
      (run cfg initial_state inputs).audio_in_pcm_buffer = Ptr.audio_in_pcm_buffer_ping ∨
      (run cfg initial_state inputs).audio_in_pcm_buffer = Ptr.audio_in_pcm_buffer_pong) ∧
    (∀ r ∈ tick_log cfg initial_state inputs, Recording r.before →
      written_buffers r.result.effects = [r.result.state.audio_in_pcm_buffer] ∧
      (r.result.state.audio_in_pcm_buffer = Ptr.audio_in_pcm_buffer_ping ∨
        r.result.state.audio_in_pcm_buffer = Ptr.audio_in_pcm_buffer_pong) ∧
      Ptr.null ∉ written_buffers r.result.effects) ∧
    (∀ r ∈ tick_log cfg initial_state inputs, r.before.audio_in_start_recording = true →
      written_buffers r.result.effects = [Ptr.audio_in_pcm_buffer_ping]) ∧
    (∀ (n : Nat) (r1 r2 : TickRecord),
      (tick_log cfg initial_state inputs)[n]? = some r1 →
      (tick_log cfg initial_state inputs)[n + 1]? = some r2 →
      Recording r2.before →
      (written_buffers r1.result.effects = [Ptr.audio_in_pcm_buffer_ping] ∧
        written_buffers r2.result.effects = [Ptr.audio_in_pcm_buffer_pong]) ∨
      (written_buffers r1.result.effects = [Ptr.audio_in_pcm_buffer_pong] ∧
        written_buffers r2.result.effects = [Ptr.audio_in_pcm_buffer_ping])) := by
  refine ⟨?_, ?_, ?_, ?_⟩
  · exact run_recording_selected cfg inputs initial_state (fun h => absurd h (by decide))
  · intro r hr hrec
    obtain ⟨p, n, hres⟩ := tick_log_mem cfg inputs initial_state r hr
    obtain ⟨hw, hsel, _⟩ := (tick_written r.before p n).2.1 hrec
    rw [← hres] at hw hsel
    refine ⟨hw, hsel, ?_⟩
    rw [hw]
    rcases hsel with h | h <;> simp [h]
  · intro r hr hstart
    obtain ⟨p, n, hres⟩ := tick_log_mem cfg inputs initial_state r hr
    have hw := (tick_written r.before p n).1 hstart
    rw [← hres] at hw
    exact hw
  · intro n r1 r2 h1 h2 hrec
    exact consecutive_recording_ticks_from cfg inputs initial_state n r1 r2 h1 h2 hrec

/-- A run with a start tick followed by three recording ticks, with words arriving in
between. -/
def alternating_inputs : List Input :=
  [Input.control AudioEvent.USB_AUDIO_RECORD_START 0 (AudioControl.other 0) [] 0 0 1,
   Input.tick Ptr.null 0,
   Input.capture [1, 2, 3, 4],
   Input.tick Ptr.null 0,
   Input.tick Ptr.null 0,
   Input.capture [5, 6],
   Input.tick Ptr.null 0]

theorem recording_selection_invariant_witness :
    (run (microphone_config ⟨2⟩) initial_state alternating_inputs).audio_in_is_recording
      = true ∧
    (tick_log (microphone_config ⟨2⟩) initial_state alternating_inputs).map
        (fun r => written_buffers r.result.effects)
      = [[Ptr.audio_in_pcm_buffer_ping], [Ptr.audio_in_pcm_buffer_pong],
         [Ptr.audio_in_pcm_buffer_ping], [Ptr.audio_in_pcm_buffer_pong]] ∧
    ((run (microphone_config ⟨2⟩) initial_state alternating_inputs).audio_in_pcm_buffer
        = Ptr.audio_in_pcm_buffer_ping ∨
      (run (microphone_config ⟨2⟩) initial_state alternating_inputs).audio_in_pcm_buffer
        = Ptr.audio_in_pcm_buffer_pong) :=
  ⟨by decide, by decide,
    (recording_selection_invariant (microphone_config ⟨2⟩) alternating_inputs).1
      (by decide)⟩

end AudioRecorder
